import Mathlib

/-!
# dns-lookup: a verification development of `dns.go`

The program is one Go file: an HTTP-triggered `handler` that decodes a JSON body
`{"name": ..., "type": ...}`, builds a DNS query with `message`, sends it with `query`
to a fixed resolver and returns the answers as a JSON array.

The development is a shallow embedding:

* Go strings are Lean `String`s (sequences of Unicode scalar values, that is, valid
  UTF-8 text); functions that walk a string work on its list of characters.
* Go panics are an explicit outcome (`Go.panic`).
* The outside world (the random transaction id and the resolver behind
  `Client.Exchange`) is a value of type `World`; every exchange that is performed is
  recorded in the `calls` of a `Run`.
* The parts of the imported packages (`strings`, `strconv`, `encoding/json`,
  `github.com/miekg/dns`, `aws-lambda-go/events`) that `dns.go` calls are embedded in the
  namespaces `strings`, `strconv`, `json`, `dns` and `events`, following those packages.
-/

set_option autoImplicit false

/-! ## Go runtime -/

/-- Outcome of running a Go function: it returns a value or it panics. -/
inductive Go (α : Type) where
  | ret (a : α)
  | panic (msg : String)
  deriving DecidableEq, Repr

/-- A Go `error` value, observed through its `Error()` text (which is what `%v` prints). -/
structure GoError where
  Error : String
  deriving DecidableEq, Repr

/-- A Go slice value: the `nil` slice, or an allocated slice with its elements. -/
inductive Slice (α : Type) where
  | nil
  | of (elems : List α)
  deriving DecidableEq, Repr

/-- Indexing `xs[i]` with a Go `int` index: out of range is a run-time panic. -/
def goIndex {α : Type} (xs : List α) (i : Int) : Go α :=
  if i < 0 then .panic "runtime error: index out of range"
  else
    match xs.get? i.toNat with
    | some x => .ret x
    | none => .panic "runtime error: index out of range"

/-! ## Package `strconv` -/

namespace strconv

/-- One lower-case hexadecimal digit (`lowerhex[n]`). -/
def lowerhex (n : Nat) : Char :=
  "0123456789abcdef".data.getD n '0'

/-- `strconv.FormatUint(n, 10)` / `strconv.Itoa` on a non-negative value. -/
def FormatUint (n : Nat) : String := Nat.repr n

/-- `strconv.IsPrint` restricted to the Latin-1 range `r <= 0xFF`. -/
def IsPrintLatin1 (r : Nat) : Bool :=
  (0x20 ≤ r && r ≤ 0x7E) || (0xA1 ≤ r && r ≤ 0xFF && r != 0xAD)

/-- The text `strconv.Quote(string(rune(b)))` puts between the double quotes, for a
rune `b <= 0xFF`. -/
def quotedLatin1 (b : Nat) : String :=
  if b = 0x22 ∨ b = 0x5C then String.mk ['\\', Char.ofNat b]
  else if IsPrintLatin1 b then String.mk [Char.ofNat b]
  else if b = 7 then "\\a"
  else if b = 8 then "\\b"
  else if b = 12 then "\\f"
  else if b = 10 then "\\n"
  else if b = 13 then "\\r"
  else if b = 9 then "\\t"
  else if b = 11 then "\\v"
  else if b < 0x20 ∨ b = 0x7F then String.mk ['\\', 'x', lowerhex (b / 16), lowerhex (b % 16)]
  else String.mk ['\\', 'u', '0', '0', lowerhex (b / 16), lowerhex (b % 16)]

end strconv

/-! ## Package `strings` -/

namespace strings

/-- `strings.Index(s, substr)`: index of the first instance of `substr` in `s`;
`none` stands for Go's `-1`. -/
def Index : List Char → List Char → Option Nat
  | [], sep => if sep = [] then some 0 else none
  | c :: cs, sep =>
    if sep.isPrefixOf (c :: cs) then some 0
    else (Index cs sep).map (· + 1)

/-- The loop of `strings.Count(s, substr)` for a non-empty `substr`:
`for { i := Index(s, substr); if i == -1 { return n }; n++; s = s[i+len(substr):] }`. -/
def countLoop (sep : List Char) : Nat → List Char → Nat → Nat
  | 0, _, n => n
  | fuel + 1, s, n =>
    match Index s sep with
    | none => n
    | some i => countLoop sep fuel (s.drop (i + sep.length)) (n + 1)

/-- `strings.Count(s, substr)`: number of non-overlapping instances of `substr`; for the
empty `substr` it is the number of characters plus one. -/
def Count (s sep : List Char) : Nat :=
  if sep = [] then s.length + 1 else countLoop sep (s.length + 1) s 0

/-- The loop of `genSplit`, run for at most `n` rounds:
`for i < n { m := Index(s, sep); if m < 0 { break }; a[i] = s[:m]; s = s[m+len(sep):]; i++ }`
followed by `a[i] = s; return a[:i+1]`. -/
def genSplitLoop (sep : List Char) : Nat → List Char → List (List Char)
  | 0, s => [s]
  | n + 1, s =>
    match Index s sep with
    | none => [s]
    | some m => s.take m :: genSplitLoop sep n (s.drop (m + sep.length))

/-- `strings.genSplit(s, sep, 0, -1)`. For the empty separator the string is exploded
into its characters (`explode(s, -1)`); otherwise `n = Count(s, sep) + 1` pieces are cut. -/
def genSplit (s sep : List Char) : List (List Char) :=
  if sep = [] then s.map (fun c => [c])
  else
    let n := Count s sep + 1
    let n := if n > s.length + 1 then s.length + 1 else n
    genSplitLoop sep (n - 1) s

/-- `strings.Split(s, sep)`. -/
def Split (s sep : String) : List String :=
  (genSplit s.data sep.data).map String.mk

end strings

/-! ## Package `encoding/json`: the scanner (`scanner.go`)

The scanner is a state machine fed one byte at a time. All bytes it distinguishes are
ASCII, and every byte of a multi-byte UTF-8 sequence is `>= 0x80`, so on valid UTF-8
text feeding characters gives the same transitions as feeding bytes. -/

namespace json

/-- The values returned by the scanner's state transition functions. -/
inductive Opcode where
  | scanContinue
  | scanBeginLiteral
  | scanBeginObject
  | scanObjectKey
  | scanObjectValue
  | scanEndObject
  | scanBeginArray
  | scanArrayValue
  | scanEndArray
  | scanSkipSpace
  | scanEnd
  | scanError
  deriving DecidableEq, Repr

/-- The entries of the scanner's `parseState` stack. -/
inductive ParseState where
  | parseObjectKey
  | parseObjectValue
  | parseArrayValue
  deriving DecidableEq, Repr

/-- The state transition function `s.step` currently points to. -/
inductive StepFn where
  | stateBeginValueOrEmpty
  | stateBeginValue
  | stateBeginStringOrEmpty
  | stateBeginString
  | stateEndValue
  | stateEndTop
  | stateInString
  | stateInStringEsc
  | stateInStringEscU
  | stateInStringEscU1
  | stateInStringEscU12
  | stateInStringEscU123
  | stateNeg
  | state1
  | state0
  | stateDot
  | stateDot0
  | stateE
  | stateESign
  | stateE0
  | stateT
  | stateTr
  | stateTru
  | stateF
  | stateFa
  | stateFal
  | stateFals
  | stateN
  | stateNu
  | stateNul
  | stateError
  deriving DecidableEq, Repr

/-- A `*json.SyntaxError`; `Error()` returns `msg` (the byte offset is not printed and
is not modelled). -/
structure SyntaxError where
  msg : String
  deriving DecidableEq, Repr

/-- The scanner. `parseState` is kept with the innermost entry first. -/
structure scanner where
  step : StepFn
  endTop : Bool
  parseState : List ParseState
  err : Option SyntaxError
  deriving DecidableEq, Repr

def maxNestingDepth : Nat := 10000

/-- First byte of the UTF-8 encoding of a character. -/
def firstByte (c : Char) : Nat :=
  let n := c.toNat
  if n < 0x80 then n
  else if n < 0x800 then 0xC0 + n / 64
  else if n < 0x10000 then 0xE0 + n / 4096
  else 0xF0 + n / 262144

/-- `quoteChar(c)` for the byte `c`: how an offending byte is shown in a syntax error. -/
def quoteChar (c : Char) : String :=
  if c = '\'' then "'\\''"
  else if c = '"' then "'\"'"
  else "'" ++ strconv.quotedLatin1 (firstByte c) ++ "'"

/-- `s.reset()`. -/
def scanner.reset : scanner :=
  { step := .stateBeginValue, endTop := false, parseState := [], err := none }

/-- `s.error(c, context)`: record a syntax error and switch to the error state. -/
def scanner.error (s : scanner) (c : Char) (context : String) : scanner × Opcode :=
  ({ s with step := .stateError,
            err := some ⟨"invalid character " ++ quoteChar c ++ " " ++ context⟩ },
   .scanError)

/-- `s.pushParseState(c, newParseState, successState)`. -/
def scanner.pushParseState (s : scanner) (c : Char) (newParseState : ParseState)
    (successState : Opcode) : scanner × Opcode :=
  let s := { s with parseState := newParseState :: s.parseState }
  if s.parseState.length ≤ maxNestingDepth then (s, successState)
  else s.error c "exceeded max depth"

/-- `s.popParseState()`. -/
def scanner.popParseState (s : scanner) : scanner :=
  let s := { s with parseState := s.parseState.tail }
  if s.parseState.length = 0 then { s with step := .stateEndTop, endTop := true }
  else { s with step := .stateEndValue }

def isSpace (c : Char) : Bool :=
  c = ' ' || c = '\t' || c = '\r' || c = '\n'

def isDigit (c : Char) : Bool := '0'.toNat ≤ c.toNat && c.toNat ≤ '9'.toNat

def isDigit19 (c : Char) : Bool := '1'.toNat ≤ c.toNat && c.toNat ≤ '9'.toNat

def isHex (c : Char) : Bool :=
  isDigit c || ('a'.toNat ≤ c.toNat && c.toNat ≤ 'f'.toNat)
    || ('A'.toNat ≤ c.toNat && c.toNat ≤ 'F'.toNat)

/-- `stateEndTop`: after the top-level value; a non-space byte is complained about on the
next call, and `scanEnd` is returned in both cases. -/
def stateEndTop (s : scanner) (c : Char) : scanner × Opcode :=
  if !isSpace c then ((s.error c "after top-level value").1, .scanEnd)
  else (s, .scanEnd)

/-- `stateEndValue`: after a value (a literal, or a closed array or object). -/
def stateEndValue (s : scanner) (c : Char) : scanner × Opcode :=
  match s.parseState with
  | [] => stateEndTop { s with step := .stateEndTop, endTop := true } c
  | ps :: rest =>
    if isSpace c then ({ s with step := .stateEndValue }, .scanSkipSpace)
    else
      match ps with
      | .parseObjectKey =>
        if c = ':' then
          ({ s with parseState := .parseObjectValue :: rest, step := .stateBeginValue },
           .scanObjectKey)
        else s.error c "after object key"
      | .parseObjectValue =>
        if c = ',' then
          ({ s with parseState := .parseObjectKey :: rest, step := .stateBeginString },
           .scanObjectValue)
        else if c = '}' then (s.popParseState, .scanEndObject)
        else s.error c "after object key:value pair"
      | .parseArrayValue =>
        if c = ',' then ({ s with step := .stateBeginValue }, .scanArrayValue)
        else if c = ']' then (s.popParseState, .scanEndArray)
        else s.error c "after array element"

/-- `stateBeginValue`: at the beginning of a value. -/
def stateBeginValue (s : scanner) (c : Char) : scanner × Opcode :=
  if isSpace c then (s, .scanSkipSpace)
  else if c = '{' then
    scanner.pushParseState { s with step := .stateBeginStringOrEmpty } c .parseObjectKey
      .scanBeginObject
  else if c = '[' then
    scanner.pushParseState { s with step := .stateBeginValueOrEmpty } c .parseArrayValue
      .scanBeginArray
  else if c = '"' then ({ s with step := .stateInString }, .scanBeginLiteral)
  else if c = '-' then ({ s with step := .stateNeg }, .scanBeginLiteral)
  else if c = '0' then ({ s with step := .state0 }, .scanBeginLiteral)
  else if c = 't' then ({ s with step := .stateT }, .scanBeginLiteral)
  else if c = 'f' then ({ s with step := .stateF }, .scanBeginLiteral)
  else if c = 'n' then ({ s with step := .stateN }, .scanBeginLiteral)
  else if isDigit19 c then ({ s with step := .state1 }, .scanBeginLiteral)
  else s.error c "looking for beginning of value"

/-- `stateBeginValueOrEmpty`: after reading `[`. -/
def stateBeginValueOrEmpty (s : scanner) (c : Char) : scanner × Opcode :=
  if isSpace c then (s, .scanSkipSpace)
  else if c = ']' then stateEndValue s c
  else stateBeginValue s c

/-- `stateBeginString`: after reading `{"key": value,`. -/
def stateBeginString (s : scanner) (c : Char) : scanner × Opcode :=
  if isSpace c then (s, .scanSkipSpace)
  else if c = '"' then ({ s with step := .stateInString }, .scanBeginLiteral)
  else s.error c "looking for beginning of object key string"

/-- `stateBeginStringOrEmpty`: after reading `{`. -/
def stateBeginStringOrEmpty (s : scanner) (c : Char) : scanner × Opcode :=
  if isSpace c then (s, .scanSkipSpace)
  else if c = '}' then
    stateEndValue { s with parseState := .parseObjectValue :: s.parseState.tail } c
  else stateBeginString s c

/-- `stateInString`: inside a string literal. -/
def stateInString (s : scanner) (c : Char) : scanner × Opcode :=
  if c = '"' then ({ s with step := .stateEndValue }, .scanContinue)
  else if c = '\\' then ({ s with step := .stateInStringEsc }, .scanContinue)
  else if c.toNat < 0x20 then s.error c "in string literal"
  else (s, .scanContinue)

/-- `stateInStringEsc`: after a backslash in a string literal. -/
def stateInStringEsc (s : scanner) (c : Char) : scanner × Opcode :=
  if c = 'b' ∨ c = 'f' ∨ c = 'n' ∨ c = 'r' ∨ c = 't' ∨ c = '\\' ∨ c = '/' ∨ c = '"' then
    ({ s with step := .stateInString }, .scanContinue)
  else if c = 'u' then ({ s with step := .stateInStringEscU }, .scanContinue)
  else s.error c "in string escape code"

/-- The four states `stateInStringEscU`, `...U1`, `...U12`, `...U123`: each expects a
hexadecimal digit and moves to `next`. -/
def stateInStringEscHex (next : StepFn) (s : scanner) (c : Char) : scanner × Opcode :=
  if isHex c then ({ s with step := next }, .scanContinue)
  else s.error c "in \\u hexadecimal character escape"

/-- `stateNeg`: after a minus sign. -/
def stateNeg (s : scanner) (c : Char) : scanner × Opcode :=
  if c = '0' then ({ s with step := .state0 }, .scanContinue)
  else if isDigit19 c then ({ s with step := .state1 }, .scanContinue)
  else s.error c "in numeric literal"

/-- `state0`: after a leading `0` (or the integer part of a number). -/
def state0 (s : scanner) (c : Char) : scanner × Opcode :=
  if c = '.' then ({ s with step := .stateDot }, .scanContinue)
  else if c = 'e' ∨ c = 'E' then ({ s with step := .stateE }, .scanContinue)
  else stateEndValue s c

/-- `state1`: after a non-zero integer part. -/
def state1 (s : scanner) (c : Char) : scanner × Opcode :=
  if isDigit c then ({ s with step := .state1 }, .scanContinue)
  else state0 s c

/-- `stateDot`: after the decimal point. -/
def stateDot (s : scanner) (c : Char) : scanner × Opcode :=
  if isDigit c then ({ s with step := .stateDot0 }, .scanContinue)
  else s.error c "after decimal point in numeric literal"

/-- `stateDot0`: after a digit of the fraction. -/
def stateDot0 (s : scanner) (c : Char) : scanner × Opcode :=
  if isDigit c then (s, .scanContinue)
  else if c = 'e' ∨ c = 'E' then ({ s with step := .stateE }, .scanContinue)
  else stateEndValue s c

/-- `stateESign`: after `e` and an optional sign. -/
def stateESign (s : scanner) (c : Char) : scanner × Opcode :=
  if isDigit c then ({ s with step := .stateE0 }, .scanContinue)
  else s.error c "in exponent of numeric literal"

/-- `stateE`: after the `e` of an exponent. -/
def stateE (s : scanner) (c : Char) : scanner × Opcode :=
  if c = '+' ∨ c = '-' then ({ s with step := .stateESign }, .scanContinue)
  else stateESign s c

/-- `stateE0`: after a digit of the exponent. -/
def stateE0 (s : scanner) (c : Char) : scanner × Opcode :=
  if isDigit c then (s, .scanContinue)
  else stateEndValue s c

/-- The states inside the literals `true`, `false` and `null`: each expects the
character `want` and moves to `next`. -/
def stateLiteral (want : Char) (next : StepFn) (context : String) (s : scanner) (c : Char) :
    scanner × Opcode :=
  if c = want then ({ s with step := next }, .scanContinue)
  else s.error c context

/-- `s.step(s, c)`: dispatch on the current state transition function. -/
def scanner.stepFn (s : scanner) (c : Char) : scanner × Opcode :=
  match s.step with
  | .stateBeginValueOrEmpty => stateBeginValueOrEmpty s c
  | .stateBeginValue => stateBeginValue s c
  | .stateBeginStringOrEmpty => stateBeginStringOrEmpty s c
  | .stateBeginString => stateBeginString s c
  | .stateEndValue => stateEndValue s c
  | .stateEndTop => stateEndTop s c
  | .stateInString => stateInString s c
  | .stateInStringEsc => stateInStringEsc s c
  | .stateInStringEscU => stateInStringEscHex .stateInStringEscU1 s c
  | .stateInStringEscU1 => stateInStringEscHex .stateInStringEscU12 s c
  | .stateInStringEscU12 => stateInStringEscHex .stateInStringEscU123 s c
  | .stateInStringEscU123 => stateInStringEscHex .stateInString s c
  | .stateNeg => stateNeg s c
  | .state1 => state1 s c
  | .state0 => state0 s c
  | .stateDot => stateDot s c
  | .stateDot0 => stateDot0 s c
  | .stateE => stateE s c
  | .stateESign => stateESign s c
  | .stateE0 => stateE0 s c
  | .stateT => stateLiteral 'r' .stateTr "in literal true (expecting 'r')" s c
  | .stateTr => stateLiteral 'u' .stateTru "in literal true (expecting 'u')" s c
  | .stateTru => stateLiteral 'e' .stateEndValue "in literal true (expecting 'e')" s c
  | .stateF => stateLiteral 'a' .stateFa "in literal false (expecting 'a')" s c
  | .stateFa => stateLiteral 'l' .stateFal "in literal false (expecting 'l')" s c
  | .stateFal => stateLiteral 's' .stateFals "in literal false (expecting 's')" s c
  | .stateFals => stateLiteral 'e' .stateEndValue "in literal false (expecting 'e')" s c
  | .stateN => stateLiteral 'u' .stateNu "in literal null (expecting 'u')" s c
  | .stateNu => stateLiteral 'l' .stateNul "in literal null (expecting 'l')" s c
  | .stateNul => stateLiteral 'l' .stateEndValue "in literal null (expecting 'l')" s c
  | .stateError => (s, .scanError)

/-- `s.eof()`: tell the scanner that the end of input has been reached. -/
def scanner.eof (s : scanner) : scanner × Opcode :=
  if s.err.isSome then (s, .scanError)
  else if s.endTop then (s, .scanEnd)
  else
    let s := (s.stepFn ' ').1
    if s.endTop then (s, .scanEnd)
    else if s.err.isNone then
      ({ s with err := some ⟨"unexpected end of JSON input"⟩ }, .scanError)
    else (s, .scanError)

end json

/-! ## The record types of `dns.go` -/

/-- `type Request struct`: the decoded JSON body, with the JSON keys `name` and `type`. -/
structure Request where
  DomainName : String
  Type_ : String
  deriving DecidableEq, Repr

/-- `type Response struct`: one flattened answer record, with the JSON keys `name`,
`value`, `type`, `ttl` (in this order of declaration); `TTL` is a `uint32`. -/
structure Response where
  Name : String
  Value : String
  Type_ : String
  TTL : Nat
  deriving DecidableEq, Repr

/-! ## Package `encoding/json`: decoding into a `Request` (`stream.go`, `decode.go`)

`json.NewDecoder(strings.NewReader(body)).Decode(&req)` first reads one complete JSON
value from the stream (`readValue`, driven by the scanner) and then unmarshals exactly
that value into `req` (`unmarshal`). The reflection of `decode.go` is specialised to the
target type `Request`: a struct with two string fields. -/

namespace json

/-- A `*json.UnmarshalTypeError`: a JSON value that does not fit the Go type. -/
structure UnmarshalTypeError where
  Value : String
  Type_ : String
  Struct : String
  Field : String
  deriving DecidableEq, Repr

/-- `(*UnmarshalTypeError).Error()`. -/
def UnmarshalTypeError.Error (e : UnmarshalTypeError) : String :=
  if e.Struct ≠ "" ∨ e.Field ≠ "" then
    "json: cannot unmarshal " ++ e.Value ++ " into Go struct field " ++ e.Struct ++ "."
      ++ e.Field ++ " of type " ++ e.Type_
  else "json: cannot unmarshal " ++ e.Value ++ " into Go value of type " ++ e.Type_

/-- The errors `Decode` can return for a `*Request` target. -/
inductive error where
  | EOF
  | ErrUnexpectedEOF
  | Syntax (e : SyntaxError)
  | UnmarshalType (e : UnmarshalTypeError)
  deriving DecidableEq, Repr

/-- The `Error()` text of a decoding error (`io.EOF` is "EOF", `io.ErrUnexpectedEOF` is
"unexpected EOF"). -/
def error.Error : error → String
  | .EOF => "EOF"
  | .ErrUnexpectedEOF => "unexpected EOF"
  | .Syntax e => e.msg
  | .UnmarshalType e => e.Error

/-- `nonSpace(b)`: does the buffer hold a byte that is not JSON white space? -/
def nonSpace (b : List Char) : Bool := b.any (fun c => !isSpace c)

/-- The scanning loop of `(*Decoder).readValue` over the unread input (for a
`strings.Reader` the buffer ends up holding the whole string `buf`; the end of the list
is the point where `refill` reports `io.EOF`). `scanp` counts the characters consumed.
Returns `(n, err)` as the Go function does. -/
def readValueLoop (buf : List Char) : scanner → List Char → Nat → Nat × Option error
  | s, [], scanp =>
    if (s.stepFn ' ').2 = .scanEnd then (scanp, none)
    else if nonSpace buf then (0, some .ErrUnexpectedEOF)
    else (0, some .EOF)
  | s, c :: rest, scanp =>
    match s.stepFn c with
    | (_, .scanEnd) => (scanp, none)
    | (s, .scanEndObject) =>
      match stateEndValue s ' ' with
      | (_, .scanEnd) => (scanp + 1, none)
      | (s, _) => readValueLoop buf s rest (scanp + 1)
    | (s, .scanEndArray) =>
      match stateEndValue s ' ' with
      | (_, .scanEnd) => (scanp + 1, none)
      | (s, _) => readValueLoop buf s rest (scanp + 1)
    | (s, .scanError) => (0, s.err.map .Syntax)
    | (s, _) => readValueLoop buf s rest (scanp + 1)

/-- `(*Decoder).readValue` on a fresh decoder over the string `buf`. -/
def readValue (buf : List Char) : Nat × Option error :=
  readValueLoop buf scanner.reset buf 0

/-- Where a JSON value is stored: the `Request` struct itself, one of its two string
fields, or nowhere (the invalid `reflect.Value` used for unknown keys). -/
inductive Target where
  | Request
  | DomainName
  | Type_
  | invalid
  deriving DecidableEq, Repr

/-- `v.Type().String()` of a target. -/
def Target.typeName : Target → String
  | .Request => "main.Request"
  | _ => "string"

/-- The decoding state: `data` is the unread input `d.data[d.off:]`, `prev` the byte
read last (`d.data[d.off-1]`), `req` the `Request` being filled. -/
structure decodeState where
  data : List Char
  prev : Char
  opcode : Opcode
  scan : scanner
  savedError : Option error
  req : Request
  deriving DecidableEq, Repr

def phasePanicMsg : String := "JSON decoder out of sync - data changing underfoot?"

/-- `d.saveError(err)` for an `UnmarshalTypeError` raised at `target`: only the first
error is kept; `addErrorContext` fills in the struct and field of a field target. -/
def decodeState.saveError (d : decodeState) (target : Target) (value : String) : decodeState :=
  match d.savedError with
  | some _ => d
  | none =>
    let e : UnmarshalTypeError :=
      match target with
      | .DomainName => ⟨value, target.typeName, "Request", "name"⟩
      | .Type_ => ⟨value, target.typeName, "Request", "type"⟩
      | _ => ⟨value, target.typeName, "", ""⟩
    { d with savedError := some (.UnmarshalType e) }

/-- `d.scanNext()`: process the next byte, or the end of the data. -/
def decodeState.scanNext (d : decodeState) : decodeState :=
  match d.data with
  | c :: rest =>
    let r := d.scan.stepFn c
    { d with data := rest, prev := c, scan := r.1, opcode := r.2 }
  | [] =>
    let r := d.scan.eof
    { d with scan := r.1, opcode := r.2 }

/-- The loop of `d.scanWhile(op)`: process bytes until the scanner returns an opcode
other than `op`. -/
def scanWhileLoop (op : Opcode) : scanner → List Char → Char → scanner × Opcode × List Char × Char
  | s, [], prev =>
    let r := s.eof
    (r.1, r.2, [], prev)
  | s, c :: rest, _ =>
    let r := s.stepFn c
    if r.2 ≠ op then (r.1, r.2, rest, c)
    else scanWhileLoop op r.1 rest c

/-- `d.scanWhile(op)`. -/
def decodeState.scanWhile (d : decodeState) (op : Opcode) : decodeState :=
  let r := scanWhileLoop op d.scan d.data d.prev
  { d with scan := r.1, opcode := r.2.1, data := r.2.2.1, prev := r.2.2.2 }

/-- The string case of `rescanLiteral`: read up to and including the closing quote,
stepping over escaped characters. Returns the part read and the rest. -/
def rescanString : List Char → List Char × List Char
  | [] => ([], [])
  | [c] => ([c], [])
  | c :: c2 :: rest =>
    if c = '\\' then
      let r := rescanString rest
      (c :: c2 :: r.1, r.2)
    else if c = '"' then ([c], c2 :: rest)
    else
      let r := rescanString (c2 :: rest)
      (c :: r.1, r.2)

/-- The bytes `rescanLiteral` accepts inside a number. -/
def isNumberByte (c : Char) : Bool :=
  isDigit c || c = '.' || c = 'e' || c = 'E' || c = '+' || c = '-'

/-- `d.rescanLiteral()`: the first byte of the literal (`d.prev`) has been read; read the
rest of it and feed the byte that follows to `stateEndValue`. Returns the new state and
the whole literal (`d.data[start:d.readIndex()]`). -/
def decodeState.rescanLiteral (d : decodeState) : decodeState × List Char :=
  let r : List Char × List Char :=
    if d.prev = '"' then rescanString d.data
    else if isDigit d.prev ∨ d.prev = '-' then d.data.span isNumberByte
    else if d.prev = 't' then (d.data.take 3, d.data.drop 3)
    else if d.prev = 'f' then (d.data.take 4, d.data.drop 4)
    else if d.prev = 'n' then (d.data.take 3, d.data.drop 3)
    else ([], d.data)
  let item := d.prev :: r.1
  match r.2 with
  | c :: rest =>
    let e := stateEndValue d.scan c
    ({ d with scan := e.1, opcode := e.2, data := rest, prev := c }, item)
  | [] => ({ d with opcode := .scanEnd, data := [] }, item)

/-- The loop of `d.skip()`: process bytes until the nesting is shallower than `depth`.
Reading past the end of the data is an index panic in Go (`none`). -/
def skipLoop (depth : Nat) : scanner → List Char → Option (scanner × Opcode × List Char × Char)
  | _, [] => none
  | s, c :: rest =>
    let r := s.stepFn c
    if r.1.parseState.length < depth then some (r.1, r.2, rest, c)
    else skipLoop depth r.1 rest

/-- `d.skip()`: scan to the end of the array or object that has just been entered. -/
def decodeState.skip (d : decodeState) : Go decodeState :=
  match skipLoop d.scan.parseState.length d.scan d.data with
  | some r => .ret { d with scan := r.1, opcode := r.2.1, data := r.2.2.1, prev := r.2.2.2 }
  | none => .panic "runtime error: index out of range"

/-- One hexadecimal digit of `getu4`. -/
def hexVal (c : Char) : Option Nat :=
  if isDigit c then some (c.toNat - '0'.toNat)
  else if 'a'.toNat ≤ c.toNat ∧ c.toNat ≤ 'f'.toNat then some (c.toNat - 'a'.toNat + 10)
  else if 'A'.toNat ≤ c.toNat ∧ c.toNat ≤ 'F'.toNat then some (c.toNat - 'A'.toNat + 10)
  else none

/-- `getu4(s)`: the value of a leading `\uXXXX`; `none` stands for Go's `-1`. -/
def getu4 : List Char → Option Nat
  | c0 :: c1 :: a :: b :: c :: d :: _ =>
    if c0 = '\\' ∧ c1 = 'u' then
      match hexVal a, hexVal b, hexVal c, hexVal d with
      | some a, some b, some c, some d => some (((a * 16 + b) * 16 + c) * 16 + d)
      | _, _, _, _ => none
    else none
  | _ => none

/-- `unicode.ReplacementChar`. -/
def ReplacementChar : Nat := 0xFFFD

/-- `utf16.IsSurrogate(r)`. -/
def IsSurrogate (r : Nat) : Bool := 0xd800 ≤ r && r < 0xe000

/-- `utf16.DecodeRune(r1, r2)`, with `none` for a second argument of `-1`. -/
def DecodeRune (r1 : Nat) (r2 : Option Nat) : Nat :=
  match r2 with
  | some r2 =>
    if 0xd800 ≤ r1 ∧ r1 < 0xdc00 ∧ 0xdc00 ≤ r2 ∧ r2 < 0xe000 then
      (r1 - 0xd800) * 1024 + (r2 - 0xdc00) + 0x10000
    else ReplacementChar
  | none => ReplacementChar

/-- The loop of `unquoteBytes` over the text between the quotes: escapes are replaced,
a quote or a control character makes it fail. The first argument is the number of
characters still to be stepped over: the loop index `r` of the Go code advances by 2
over a simple escape, by 6 over `\uXXXX` and by 12 over a surrogate pair. (The fast path
of `unquoteBytes` for a text without a backslash returns the same text as this loop.) -/
def unquoteLoop : Nat → List Char → Option (List Char)
  | _, [] => some []
  | skip + 1, _ :: rest => unquoteLoop skip rest
  | 0, c :: rest =>
    if c = '\\' then
      match rest with
      | [] => none
      | e :: _ =>
        if e = '"' ∨ e = '\\' ∨ e = '/' ∨ e = '\'' then (unquoteLoop 1 rest).map (e :: ·)
        else if e = 'b' then (unquoteLoop 1 rest).map (Char.ofNat 8 :: ·)
        else if e = 'f' then (unquoteLoop 1 rest).map (Char.ofNat 12 :: ·)
        else if e = 'n' then (unquoteLoop 1 rest).map ('\n' :: ·)
        else if e = 'r' then (unquoteLoop 1 rest).map ('\r' :: ·)
        else if e = 't' then (unquoteLoop 1 rest).map ('\t' :: ·)
        else if e = 'u' then
          match getu4 (c :: rest) with
          | none => none
          | some rr =>
            if IsSurrogate rr then
              let dec := DecodeRune rr (getu4 (rest.drop 5))
              if dec ≠ ReplacementChar then (unquoteLoop 11 rest).map (Char.ofNat dec :: ·)
              else (unquoteLoop 5 rest).map (Char.ofNat ReplacementChar :: ·)
            else (unquoteLoop 5 rest).map (Char.ofNat rr :: ·)
        else none
    else if c = '"' ∨ c.toNat < 0x20 then none
    else (unquoteLoop 0 rest).map (c :: ·)

/-- `unquoteBytes(s)`: the text of a quoted JSON string literal; `none` is `ok == false`. -/
def unquoteBytes (s : List Char) : Option (List Char) :=
  if s.length < 2 ∨ s.head? ≠ some '"' ∨ s.getLast? ≠ some '"' then none
  else unquoteLoop 0 (s.drop 1).dropLast

/-- `foldName` on one character: ASCII letters are upper-cased, and the two non-ASCII
characters whose case-folding orbit holds an ASCII letter (U+017F and U+212A) go to
that letter. Every other character folds to a non-ASCII character and is left as it is
here, which makes no difference when the result is compared with an ASCII name. -/
def foldRune (c : Char) : Char :=
  if 'a'.toNat ≤ c.toNat ∧ c.toNat ≤ 'z'.toNat then Char.ofNat (c.toNat - 32)
  else if c.toNat = 0x17F then 'S'
  else if c.toNat = 0x212A then 'K'
  else c

/-- `foldName(in)`. -/
def foldName (key : List Char) : List Char := key.map foldRune

/-- The field of `Request` a JSON key selects: an exact match of the key with `name` or
`type` first (`fields.byExactName`), then a match under case folding
(`fields.byFoldedName`); no field for any other key. -/
def fieldFor (key : List Char) : Target :=
  if key = "name".data then .DomainName
  else if key = "type".data then .Type_
  else if foldName key = foldName "name".data then .DomainName
  else if foldName key = foldName "type".data then .Type_
  else .invalid

/-- `d.literalStore(item, v, false)` for the target kinds that occur: `null` is ignored
for a struct and for a string, a string is stored in a string field, and every other
combination is saved as an `UnmarshalTypeError`. -/
def decodeState.literalStore (d : decodeState) (item : List Char) (v : Target) : Go decodeState :=
  match item with
  | [] => .panic phasePanicMsg
  | c :: _ =>
    if c = 'n' then .ret d
    else if c = 't' ∨ c = 'f' then .ret (d.saveError v "bool")
    else if c = '"' then
      match unquoteBytes item with
      | none => .panic phasePanicMsg
      | some s =>
        match v with
        | .DomainName => .ret { d with req := { d.req with DomainName := String.mk s } }
        | .Type_ => .ret { d with req := { d.req with Type_ := String.mk s } }
        | _ => .ret (d.saveError v "string")
    else if c ≠ '-' ∧ ¬ isDigit c then .panic phasePanicMsg
    else .ret (d.saveError v "number")

/-- `d.value(v)` for a target that is not the struct (a string field, or the invalid
value): a literal is stored with `literalStore` (when the target is valid); an array or
an object cannot be stored in a string, is saved as an error (when the target is valid)
and skipped (`d.array`, `d.object`), and then the next byte is scanned. -/
def decodeState.valueField (d : decodeState) (v : Target) : Go decodeState :=
  match d.opcode with
  | .scanBeginArray =>
    match (if v = .invalid then d else d.saveError v "array").skip with
    | .ret d => .ret d.scanNext
    | .panic m => .panic m
  | .scanBeginObject =>
    match (if v = .invalid then d else d.saveError v "object").skip with
    | .ret d => .ret d.scanNext
    | .panic m => .panic m
  | .scanBeginLiteral =>
    let r := d.rescanLiteral
    if v = .invalid then .ret r.1 else r.1.literalStore r.2 v
  | _ => .panic phasePanicMsg

/-- How one round of a `for` loop ends: the loop is left (with a `break`, or by a
panic), or it goes on with the next round. -/
inductive Round where
  | done (r : Go decodeState)
  | next (d : decodeState)

/-- One round of the `for` loop of `d.object(v)` for the struct target: read a key (or
the closing brace), find the field of the key, read the colon, decode the value into
the field, and read the comma (or the closing brace). -/
def objectRound (d : decodeState) : Round :=
  let d := d.scanWhile .scanSkipSpace
  if d.opcode = .scanEndObject then .done (.ret d)
  else if d.opcode ≠ .scanBeginLiteral then .done (.panic phasePanicMsg)
  else
    let r := d.rescanLiteral
    match unquoteBytes r.2 with
    | none => .done (.panic phasePanicMsg)
    | some key =>
      let subv := fieldFor key
      let d := if r.1.opcode = .scanSkipSpace then r.1.scanWhile .scanSkipSpace else r.1
      if d.opcode ≠ .scanObjectKey then .done (.panic phasePanicMsg)
      else
        match (d.scanWhile .scanSkipSpace).valueField subv with
        | .panic m => .done (.panic m)
        | .ret d =>
          let d := if d.opcode = .scanSkipSpace then d.scanWhile .scanSkipSpace else d
          if d.opcode = .scanEndObject then .done (.ret d)
          else if d.opcode ≠ .scanObjectValue then .done (.panic phasePanicMsg)
          else .next d

/-- The `for` loop of `d.object(v)` for the struct target. The loop is unbounded in Go;
`fuel` bounds the number of rounds. Every round that goes on has read at least one
byte, so that more rounds than there are unread bytes are never needed
(`objectLoop_fuel` below). -/
def objectLoop : Nat → decodeState → Go decodeState
  | 0, _ => .panic phasePanicMsg
  | fuel + 1, d =>
    match objectRound d with
    | .done r => r
    | .next d => objectLoop fuel d

/-- `d.value(rv)` at the top level, where the target is the `Request` struct: an object
is decoded field by field, an array is an error and is skipped, a literal goes to
`literalStore`. -/
def decodeState.value (d : decodeState) : Go decodeState :=
  match d.opcode with
  | .scanBeginArray =>
    match (d.saveError .Request "array").skip with
    | .ret d => .ret d.scanNext
    | .panic m => .panic m
  | .scanBeginObject =>
    match objectLoop (d.data.length + 1) d with
    | .ret d => .ret d.scanNext
    | .panic m => .panic m
  | .scanBeginLiteral =>
    let r := d.rescanLiteral
    r.1.literalStore r.2 .Request
  | _ => .panic phasePanicMsg

/-- `d.init(data)` followed by `d.unmarshal(&req)`: reset the scanner, skip leading
white space, decode the value, and return the request together with the saved error. -/
def unmarshal (data : List Char) (req : Request) : Go (Request × Option error) :=
  let d : decodeState :=
    { data := data, prev := ' ', opcode := .scanContinue, scan := scanner.reset,
      savedError := none, req := req }
  match (d.scanWhile .scanSkipSpace).value with
  | .ret d => .ret (d.req, d.savedError)
  | .panic m => .panic m

/-- `json.NewDecoder(strings.NewReader(body)).Decode(&req)`: read the first JSON value
of `body` and unmarshal it into `req`. Returns the request as left by the call and the
error (`none` is `nil`). What follows the first value in `body` is not read. -/
def Decode (body : String) (req : Request) : Go (Request × Option error) :=
  match readValue body.data with
  | (_, some err) => .ret (req, some err)
  | (n, none) => unmarshal (body.data.take n) req

end json

/-! ## Package `encoding/json`: encoding a `*[]Response` (`encode.go`) -/

namespace json

/-- `htmlSafeSet[b]` for an ASCII byte: printable ASCII (and DEL) except the double
quote, the backslash and the HTML characters `&`, `<`, `>`. -/
def htmlSafe (b : Nat) : Bool :=
  0x20 ≤ b && b < 0x80 && b != 0x22 && b != 0x5C && b != 0x26 && b != 0x3C && b != 0x3E

/-- What `appendString(dst, src, true)` writes for one character of `src`: ASCII
outside `htmlSafeSet` is escaped (`\\`, `\"`, `\b`, `\f`, `\n`, `\r`, `\t`, and
`\u00XX` for the others), U+2028 and U+2029 are escaped, everything else is copied. -/
def appendChar (c : Char) : List Char :=
  let b := c.toNat
  if b < 0x80 then
    if htmlSafe b then [c]
    else if c = '\\' ∨ c = '"' then ['\\', c]
    else if b = 8 then ['\\', 'b']
    else if b = 12 then ['\\', 'f']
    else if c = '\n' then ['\\', 'n']
    else if c = '\r' then ['\\', 'r']
    else if c = '\t' then ['\\', 't']
    else ['\\', 'u', '0', '0', strconv.lowerhex (b / 16), strconv.lowerhex (b % 16)]
  else if b = 0x2028 ∨ b = 0x2029 then ['\\', 'u', '2', '0', '2', strconv.lowerhex (b % 16)]
  else [c]

/-- `appendString(dst, src, escapeHTML = true)`: the JSON string literal for `src`. -/
def appendString (src : String) : String :=
  String.mk ('"' :: (src.data.map appendChar).flatten ++ ['"'])

/-- The encoding of one `Response` struct: its four fields under their JSON keys, in
the order of declaration. -/
def encodeResponse (r : Response) : String :=
  "\x7b\"name\":" ++ appendString r.Name ++ ",\"value\":" ++ appendString r.Value
    ++ ",\"type\":" ++ appendString r.Type_ ++ ",\"ttl\":" ++ strconv.FormatUint r.TTL ++ "\x7d"

/-- `json.Marshal(results)` for `results *[]Response`: `null` for a nil pointer or a
nil slice, otherwise the array of the encoded elements. The returned error is always
`nil` for this type (strings and an integer cannot fail to encode). -/
def Marshal (results : Option (Slice Response)) : String × Option GoError :=
  match results with
  | none => ("null", none)
  | some .nil => ("null", none)
  | some (.of elems) => ("[" ++ ",".intercalate (elems.map encodeResponse) ++ "]", none)

end json

/-! ## Package `github.com/miekg/dns` -/

namespace dns

/-! The RR type numbers of `types.go` that `dns.go` refers to (the numbers assigned to
the types by the DNS protocol). -/

def TypeA : Nat := 1
def TypeNS : Nat := 2
def TypeCNAME : Nat := 5
def TypeSOA : Nat := 6
def TypeMB : Nat := 7
def TypeMG : Nat := 8
def TypeMR : Nat := 9
def TypePTR : Nat := 12
def TypeHINFO : Nat := 13
def TypeMINFO : Nat := 14
def TypeMX : Nat := 15
def TypeTXT : Nat := 16
def TypeRP : Nat := 17
def TypeAFSDB : Nat := 18
def TypeX25 : Nat := 19
def TypeISDN : Nat := 20
def TypeRT : Nat := 21
def TypeNSAPPTR : Nat := 23
def TypeAAAA : Nat := 28
def TypeLOC : Nat := 29
def TypeSRV : Nat := 33
def TypeATMA : Nat := 34
def TypeNAPTR : Nat := 35
def TypeCERT : Nat := 37
def TypeDNAME : Nat := 39
def TypeDS : Nat := 43
def TypeRRSIG : Nat := 46
def TypeNSEC : Nat := 47
def TypeDNSKEY : Nat := 48
def TypeDHCID : Nat := 49
def TypeNSEC3 : Nat := 50
def TypeTLSA : Nat := 52
def TypeCAA : Nat := 257

/-- `dns.ClassINET`. -/
def ClassINET : Nat := 1

/-- The table `TypeToString` of `ztypes.go`: the canonical name of each RR type the
package knows. -/
def TypeToString : List (Nat × String) :=
  [(0, "None"), (1, "A"), (2, "NS"), (3, "MD"), (4, "MF"), (5, "CNAME"), (6, "SOA"),
   (7, "MB"), (8, "MG"), (9, "MR"), (10, "NULL"), (12, "PTR"), (13, "HINFO"),
   (14, "MINFO"), (15, "MX"), (16, "TXT"), (17, "RP"), (18, "AFSDB"), (19, "X25"),
   (20, "ISDN"), (21, "RT"), (23, "NSAP-PTR"), (24, "SIG"), (25, "KEY"), (26, "PX"),
   (27, "GPOS"), (28, "AAAA"), (29, "LOC"), (30, "NXT"), (31, "EID"), (32, "NIMLOC"),
   (33, "SRV"), (34, "ATMA"), (35, "NAPTR"), (36, "KX"), (37, "CERT"), (39, "DNAME"),
   (41, "OPT"), (42, "APL"), (43, "DS"), (44, "SSHFP"), (45, "IPSECKEY"), (46, "RRSIG"),
   (47, "NSEC"), (48, "DNSKEY"), (49, "DHCID"), (50, "NSEC3"), (51, "NSEC3PARAM"),
   (52, "TLSA"), (53, "SMIMEA"), (55, "HIP"), (56, "NINFO"), (57, "RKEY"), (58, "TALINK"),
   (59, "CDS"), (60, "CDNSKEY"), (61, "OPENPGPKEY"), (62, "CSYNC"), (63, "ZONEMD"),
   (64, "SVCB"), (65, "HTTPS"), (99, "SPF"), (100, "UINFO"), (101, "UID"), (102, "GID"),
   (103, "UNSPEC"), (104, "NID"), (105, "L32"), (106, "L64"), (107, "LP"), (108, "EUI48"),
   (109, "EUI64"), (128, "NXNAME"), (249, "TKEY"), (250, "TSIG"), (251, "IXFR"),
   (252, "AXFR"), (253, "MAILB"), (254, "MAILA"), (255, "ANY"), (256, "URI"), (257, "CAA"),
   (258, "AVC"), (260, "AMTRELAY"), (261, "RESINFO"), (32768, "TA"), (32769, "DLV"),
   (65535, "Reserved")]

/-- `Type(t).String()`: the name in `TypeToString`, or `TYPE` followed by the number
for a type that is not in the table. -/
def Type_String (t : Nat) : String :=
  match TypeToString.lookup t with
  | some name => name
  | none => "TYPE" ++ strconv.FormatUint t

/-- `dns.Question`: one entry of the question section. -/
structure Question where
  Name : String
  Qtype : Nat
  Qclass : Nat
  deriving DecidableEq, Repr

/-- `dns.RR_Header`: the header every resource record has. -/
structure RR_Header where
  Name : String
  Rrtype : Nat
  Class : Nat
  Ttl : Nat
  Rdlength : Nat
  deriving DecidableEq, Repr

/-- `dns.RR` is an interface; `dns.go` uses two of its methods, and a record is given
by what they return: `Header()` and the textual rendering `String()`. -/
structure RR where
  Header : RR_Header
  String : String
  deriving DecidableEq, Repr

/-- `dns.Msg`: the header fields (`MsgHdr`), the compression flag and the four
sections. -/
structure Msg where
  Id : Nat
  Response : Bool
  Opcode : Int
  Authoritative : Bool
  Truncated : Bool
  RecursionDesired : Bool
  RecursionAvailable : Bool
  Zero : Bool
  AuthenticatedData : Bool
  CheckingDisabled : Bool
  Rcode : Int
  Compress : Bool
  Question : List Question
  Answer : List RR
  Ns : List RR
  Extra : List RR
  deriving DecidableEq, Repr

/-- `new(dns.Msg)`: the zero message. -/
def newMsg : Msg :=
  { Id := 0, Response := false, Opcode := 0, Authoritative := false, Truncated := false,
    RecursionDesired := false, RecursionAvailable := false, Zero := false,
    AuthenticatedData := false, CheckingDisabled := false, Rcode := 0, Compress := false,
    Question := [], Answer := [], Ns := [], Extra := [] }

/-- `dns.Client`, with the one field `dns.go` sets (all others keep their zero value). -/
structure Client where
  Net : String
  deriving DecidableEq, Repr

/-- `new(dns.Client)`. -/
def newClient : Client := { Net := "" }

/-- What `(*Client).Exchange` returns: the reply (`nil` is `none`), the round-trip time
and the error (`nil` is `none`). -/
structure ExchangeResult where
  r : Option Msg
  rtt : Nat
  err : Option GoError
  deriving DecidableEq, Repr

end dns

/-! ## Package `github.com/aws/aws-lambda-go/events` -/

namespace events

/-- `events.APIGatewayProxyRequest`: the HTTP event handed to the handler (the request
context, which the handler does not read, is kept as its account and request ids). -/
structure APIGatewayProxyRequest where
  Resource : String
  Path : String
  HTTPMethod : String
  Headers : List (String × String)
  MultiValueHeaders : List (String × List String)
  QueryStringParameters : List (String × String)
  MultiValueQueryStringParameters : List (String × List String)
  PathParameters : List (String × String)
  StageVariables : List (String × String)
  RequestContext : String × String
  Body : String
  IsBase64Encoded : Bool
  deriving DecidableEq, Repr

/-- `events.APIGatewayProxyResponse`. A map is the list of its entries, `none` is the
`nil` map. -/
structure APIGatewayProxyResponse where
  StatusCode : Int
  Headers : Option (List (String × String))
  MultiValueHeaders : Option (List (String × List String))
  Body : String
  IsBase64Encoded : Bool
  deriving DecidableEq, Repr

end events

/-! ## The outside world -/

/-- What a run of the program takes from outside: the transaction id drawn by `dns.Id()`
(a `uint16`) and the behaviour of the network behind `(*Client).Exchange`, as a function
of the client, the message sent and the server address. -/
structure World where
  Id : Nat
  Exchange : dns.Client → dns.Msg → String → dns.ExchangeResult

/-- One call of `(*Client).Exchange`. -/
structure Call where
  client : dns.Client
  m : dns.Msg
  address : String
  deriving DecidableEq, Repr

/-- A run of a function that may talk to the resolver: the exchanges it performed, in
order, and how it ended. -/
structure Run (α : Type) where
  calls : List Call
  out : Go α

/-! ## `dns.go` -/

/-- The map literal `recs` of `message`: mnemonic to RR type number. -/
def recs : List (String × Nat) :=
  [("a", dns.TypeA),
   ("aaaa", dns.TypeAAAA),
   ("cname", dns.TypeCNAME),
   ("mx", dns.TypeMX),
   ("ns", dns.TypeNS),
   ("ptr", dns.TypePTR),
   ("soa", dns.TypeSOA),
   ("srv", dns.TypeSRV),
   ("txt", dns.TypeTXT),
   ("dnskey", dns.TypeDNSKEY),
   ("ds", dns.TypeDS),
   ("nsec", dns.TypeNSEC),
   ("nsec3", dns.TypeNSEC3),
   ("rrsig", dns.TypeRRSIG),
   ("afsdb", dns.TypeAFSDB),
   ("atma", dns.TypeATMA),
   ("caa", dns.TypeCAA),
   ("cert", dns.TypeCERT),
   ("dhcid", dns.TypeDHCID),
   ("dname", dns.TypeDNAME),
   ("hinfo", dns.TypeHINFO),
   ("isdn", dns.TypeISDN),
   ("loc", dns.TypeLOC),
   ("mb", dns.TypeMB),
   ("mg", dns.TypeMG),
   ("minfo", dns.TypeMINFO),
   ("mr", dns.TypeMR),
   ("naptr", dns.TypeNAPTR),
   ("nsapptr", dns.TypeNSAPPTR),
   ("rp", dns.TypeRP),
   ("rt", dns.TypeRT),
   ("tlsa", dns.TypeTLSA),
   ("x25", dns.TypeX25)]

/-- The map index expression `m[k]` for a `map[string]uint16`: the value stored under
the key, and the zero value `0` for a key that is not in the map. -/
def mapIndex (m : List (String × Nat)) (k : String) : Nat :=
  match m.lookup k with
  | some v => v
  | none => 0

/-- `func message(typ string, name string) *dns.Msg`; `id` is the value `dns.Id()`
returns. -/
def message (id : Nat) (typ : String) (name : String) : dns.Msg :=
  let m := dns.newMsg
  let m := { m with Id := id }
  let m := { m with RecursionDesired := true }
  let m := { m with Question := [⟨"", 0, 0⟩] }
  { m with Question := m.Question.set 0 ⟨name, mapIndex recs typ, dns.ClassINET⟩ }

/-- The body of the loop `for _, a := range in.Answer` of `query`, run over the answers
left, with `replies` as built so far. -/
def rangeAnswer : List dns.RR → List Response → Go (List Response)
  | [], replies => .ret replies
  | a :: rest, replies =>
    let h := a.Header
    let parts := strings.Split a.String "\t"
    match goIndex parts ((parts.length : Int) - 1) with
    | .panic msg => .panic msg
    | .ret v =>
      rangeAnswer rest
        (replies ++ [{ Value := v, Name := h.Name, TTL := h.Ttl, Type_ := dns.Type_String h.Rrtype }])

/-- `func query(typ string, name string) (*[]Response, error)`. -/
def query (w : World) (typ : String) (name : String) :
    Run (Option (Slice Response) × Option GoError) :=
  let message := message w.Id typ name
  let c := dns.newClient
  let c := { c with Net := "tcp" }
  let res := w.Exchange c message "8.8.8.8:53"
  let calls : List Call := [⟨c, message, "8.8.8.8:53"⟩]
  match res.err with
  | some err => ⟨calls, .ret (none, some err)⟩
  | none =>
    match res.r with
    | none => ⟨calls, .panic "runtime error: invalid memory address or nil pointer dereference"⟩
    | some in_ =>
      match rangeAnswer in_.Answer [] with
      | .panic msg => ⟨calls, .panic msg⟩
      | .ret replies => ⟨calls, .ret (some (.of replies), none)⟩

/-- The three headers of the two `200` responses of `handler`. -/
def standardHeaders : List (String × String) :=
  [("Content-Type", "application/json"),
   ("Access-Control-Allow-Origin", "*"),
   ("Access-Control-Allow-Headers", "*")]

/-- `func handler(request events.APIGatewayProxyRequest) (*events.APIGatewayProxyResponse, error)`. -/
def handler (w : World) (request : events.APIGatewayProxyRequest) :
    Run (events.APIGatewayProxyResponse × Option GoError) :=
  if request.HTTPMethod ≠ "POST" then
    ⟨[], .ret ({ StatusCode := 200, Headers := some standardHeaders, MultiValueHeaders := none,
                 Body := "", IsBase64Encoded := false }, none)⟩
  else
    match json.Decode request.Body ⟨"", ""⟩ with
    | .panic msg => ⟨[], .panic msg⟩
    | .ret (_, some err) =>
      ⟨[], .ret ({ StatusCode := 500, Headers := none, MultiValueHeaders := none,
                   Body := "Failed to parse payload: " ++ err.Error,
                   IsBase64Encoded := false }, none)⟩
    | .ret (req, none) =>
      let q := query w req.Type_ req.DomainName
      match q.out with
      | .panic msg => ⟨q.calls, .panic msg⟩
      | .ret (_, some err) =>
        ⟨q.calls, .ret ({ StatusCode := 500, Headers := none, MultiValueHeaders := none,
                          Body := "Failed to make DNS request: " ++ err.Error,
                          IsBase64Encoded := false }, none)⟩
      | .ret (results, none) =>
        let output := (json.Marshal results).1
        ⟨q.calls, .ret ({ StatusCode := 200, Headers := some standardHeaders,
                          MultiValueHeaders := none, Body := output,
                          IsBase64Encoded := false }, none)⟩

/-! ## `json.Valid`: the syntactically valid JSON documents

`json.Valid(data)` runs `checkValid`: the scanner is fed every byte of `data` and then
told that the input has ended; `data` is a valid JSON document if no step reports an
error. -/

namespace json

/-- The loop of `checkValid(data, scan)` followed by `scan.eof()`. -/
def checkValidLoop : scanner → List Char → Bool
  | s, [] => s.eof.2 ≠ .scanError
  | s, c :: rest =>
    let r := s.stepFn c
    if r.2 = .scanError then false else checkValidLoop r.1 rest

/-- `json.Valid(data)`: is `data` a syntactically valid JSON document? -/
def Valid (data : String) : Bool := checkValidLoop scanner.reset data.data

/-- The scanner after it has been fed the given bytes, one by one; `none` if a step
reported an error. -/
def scanAll : scanner → List Char → Option scanner
  | s, [] => some s
  | s, c :: rest =>
    let r := s.stepFn c
    if r.2 = .scanError then none else scanAll r.1 rest

end json

/-! ## Notions and sample data used in the statements -/

/-- The last element of `strings.Split(s, "\t")` (the empty string if there were none). -/
def lastField (s : String) : String :=
  ((strings.Split s "\t").getLast?).getD ""

/-- The `Response` literal the loop body of `query` appends for the answer `a`. -/
def toResponse (a : dns.RR) : Response :=
  { Value := lastField a.String, Name := a.Header.Name, TTL := a.Header.Ttl,
    Type_ := dns.Type_String a.Header.Rrtype }

/-- Two results of an exchange carry the same reply as far as `query` can tell: the
same error, and the same answer section. -/
def sameReply (r1 r2 : dns.ExchangeResult) : Prop :=
  r1.err = r2.err ∧ r1.r.map (·.Answer) = r2.r.map (·.Answer)

/-- An event with the given method and body, all other fields empty. -/
def eventOf (method body : String) : events.APIGatewayProxyRequest :=
  { Resource := "", Path := "", HTTPMethod := method, Headers := [], MultiValueHeaders := [],
    QueryStringParameters := [], MultiValueQueryStringParameters := [], PathParameters := [],
    StageVariables := [], RequestContext := ("", ""), Body := body, IsBase64Encoded := false }

/-- A world whose resolver answers every query with the given answer section (the reply
repeats the id and the question of the query); `id` is the transaction id drawn. -/
def worldReplying (id : Nat) (answers : List dns.RR) : World :=
  { Id := id,
    Exchange := fun _ m _ =>
      { r := some { m with Response := true, RecursionAvailable := true, Answer := answers },
        rtt := 0, err := none } }

/-- A world in which every exchange fails with the given error text. -/
def worldFailing (id : Nat) (text : String) : World :=
  { Id := id, Exchange := fun _ _ _ => { r := none, rtt := 0, err := some ⟨text⟩ } }

/-- The A record of `example.com.` with TTL 300 and address 93.184.216.34, as the
package renders it: owner, TTL, class, type and data separated by tabs. -/
def exampleA : dns.RR :=
  { Header := { Name := "example.com.", Rrtype := dns.TypeA, Class := dns.ClassINET,
                Ttl := 300, Rdlength := 4 },
    String := "example.com.\t300\tIN\tA\t93.184.216.34" }

/-- An MX record of `example.com.`: preference and exchange are separated by a space. -/
def exampleMX : dns.RR :=
  { Header := { Name := "example.com.", Rrtype := dns.TypeMX, Class := dns.ClassINET,
                Ttl := 300, Rdlength := 20 },
    String := "example.com.\t300\tIN\tMX\t10 mail.example.com." }

/-- A TXT record of `example.com.` with the data `hello world`, rendered in quotes. -/
def exampleTXT : dns.RR :=
  { Header := { Name := "example.com.", Rrtype := dns.TypeTXT, Class := dns.ClassINET,
                Ttl := 300, Rdlength := 12 },
    String := "example.com.\t300\tIN\tTXT\t\"hello world\"" }

/-- A CNAME record from `www.example.com.` to `example.com.`. -/
def exampleCNAME : dns.RR :=
  { Header := { Name := "www.example.com.", Rrtype := dns.TypeCNAME, Class := dns.ClassINET,
                Ttl := 60, Rdlength := 13 },
    String := "www.example.com.\t60\tIN\tCNAME\texample.com." }

/-- A TXT record whose owner name has an escaped dot and whose data holds the
characters that JSON, or the HTML-safe encoding of Go, must escape. -/
def exampleEscaped : dns.RR :=
  { Header := { Name := "a\\.b.example.com.", Rrtype := dns.TypeTXT, Class := dns.ClassINET,
                Ttl := 4294967295, Rdlength := 16 },
    String := "a\\.b.example.com.\t4294967295\tIN\tTXT\t\"<b> & \\\"x\\\"\"" }

/-- The body `\x7b"name":"example.com.","type":"a"\x7d`. -/
def exampleBody : String := "\x7b\"name\":\"example.com.\",\"type\":\"a\"\x7d"

/-- The scanner states met while a value is being read: no error has been recorded, the
end-of-top-level state is entered only with `endTop` set, and the state after `[` only
inside an array. -/
def json.scanner.Running (s : json.scanner) : Prop :=
  s.err = none ∧ s.step ≠ .stateError ∧ (s.step = .stateEndTop → s.endTop = true)
    ∧ (s.step = .stateBeginValueOrEmpty → s.parseState ≠ [])

/-- What the proofs need of one step `r` of the scanner, where `sp` is the same step
taken on a space: a step that neither fails nor ends the value keeps the scanner
running; a failing step records an error; a value ends only where a space would set
`endTop`; and closing an array or object sets `endTop` at the top level and returns to
the state after a value elsewhere. -/
def json.StepOK (r sp : json.scanner × json.Opcode) : Prop :=
  (r.2 ≠ .scanError → r.2 ≠ .scanEnd → r.1.Running)
  ∧ (r.2 = .scanError → r.1.err ≠ none)
  ∧ (r.2 = .scanEnd → sp.1.endTop = true)
  ∧ (r.2 = .scanEndObject ∨ r.2 = .scanEndArray →
      (r.1.parseState = [] → r.1.endTop = true)
        ∧ (r.1.parseState ≠ [] → r.1.step = .stateEndValue))

/-! # Theorems -/

/-! ## Lemmas on `strings.Split` with a one-character separator -/

namespace strings

theorem Index_singleton_cons (c x : Char) (xs : List Char) :
    Index (x :: xs) [c] = if c = x then some 0 else (Index xs [c]).map (· + 1) := by
  simp [Index, List.isPrefixOf]

theorem Index_singleton_none (c : Char) (s : List Char) :
    Index s [c] = none ↔ c ∉ s := by
  induction s with
  | nil => simp [Index]
  | cons x xs ih =>
    rw [Index_singleton_cons]
    by_cases h : c = x
    · simp [h]
    · simp [h, ih]

theorem Index_singleton_some (c : Char) (s : List Char) (m : Nat) (h : Index s [c] = some m) :
    c ∉ s.take m ∧ s = s.take m ++ c :: s.drop (m + 1) := by
  induction s generalizing m with
  | nil => simp [Index] at h
  | cons x xs ih =>
    rw [Index_singleton_cons] at h
    by_cases hx : c = x
    · simp [hx] at h
      subst h
      simp [hx]
    · simp [hx] at h
      obtain ⟨a, ha, rfl⟩ := h
      obtain ⟨h1, h2⟩ := ih a ha
      refine ⟨?_, ?_⟩
      · simp [List.take_succ_cons, hx, h1]
      · simp only [List.take_succ_cons, List.drop_succ_cons, List.cons_append]
        rw [← h2]

theorem count_drop_of_Index (c : Char) (s : List Char) (m : Nat) (h : Index s [c] = some m) :
    s.count c = (s.drop (m + 1)).count c + 1 := by
  obtain ⟨h1, h2⟩ := Index_singleton_some c s m h
  conv_lhs => rw [h2]
  simp [List.count_append, List.count_eq_zero_of_not_mem h1]

theorem countLoop_singleton (c : Char) (fuel : Nat) (s : List Char) (n : Nat)
    (h : s.length < fuel) : countLoop [c] fuel s n = n + s.count c := by
  induction fuel generalizing s n with
  | zero => omega
  | succ fuel ih =>
    unfold countLoop
    cases hI : Index s [c] with
    | none =>
      have := (Index_singleton_none c s).1 hI
      simp [List.count_eq_zero_of_not_mem this]
    | some i =>
      simp only [List.length_singleton]
      have hlen : (s.drop (i + 1)).length < fuel := by
        have h2 := (Index_singleton_some c s i hI).2
        have : s.length = (s.take i).length + 1 + (s.drop (i + 1)).length := by
          conv_lhs => rw [h2]
          simp; omega
        omega
      rw [ih _ _ hlen, count_drop_of_Index c s i hI]
      omega

theorem Count_singleton (c : Char) (s : List Char) : Count s [c] = s.count c := by
  simp [Count, countLoop_singleton c (s.length + 1) s 0 (by omega)]

theorem genSplitLoop_ne_nil (sep : List Char) (n : Nat) (s : List Char) :
    genSplitLoop sep n s ≠ [] := by
  cases n with
  | zero => simp [genSplitLoop]
  | succ n =>
    unfold genSplitLoop
    cases Index s sep <;> simp

theorem genSplitLoop_getLast (c : Char) (n : Nat) (s : List Char) (h : s.count c ≤ n) :
    ∀ v, (genSplitLoop [c] n s).getLast? = some v →
      c ∉ v ∧ (s = v ∨ ∃ pre, s = pre ++ c :: v) := by
  induction n generalizing s with
  | zero =>
    intro v hv
    have hc : c ∉ s := List.count_eq_zero.1 (by omega)
    simp [genSplitLoop] at hv
    subst hv
    exact ⟨hc, Or.inl rfl⟩
  | succ n ih =>
    intro v hv
    unfold genSplitLoop at hv
    cases hI : Index s [c] with
    | none =>
      rw [hI] at hv
      simp at hv
      subst hv
      exact ⟨(Index_singleton_none c s).1 hI, Or.inl rfl⟩
    | some m =>
      rw [hI] at hv
      simp only [List.length_singleton] at hv
      have hcnt := count_drop_of_Index c s m hI
      have hne := genSplitLoop_ne_nil [c] n (s.drop (m + 1))
      obtain ⟨y, ys, hy⟩ := List.exists_cons_of_ne_nil hne
      have hv2 : (genSplitLoop [c] n (s.drop (m + 1))).getLast? = some v := by
        rw [hy] at hv ⊢
        simpa [List.getLast?_cons_cons] using hv
      obtain ⟨h1, h2⟩ := ih (s.drop (m + 1)) (by omega) v hv2
      refine ⟨h1, Or.inr ?_⟩
      have hs := (Index_singleton_some c s m hI).2
      rcases h2 with h2 | ⟨pre, h2⟩
      · exact ⟨s.take m, by rw [← h2]; exact hs⟩
      · exact ⟨s.take m ++ c :: pre, by rw [List.append_assoc, List.cons_append, ← h2]; exact hs⟩

theorem genSplit_tab (s : List Char) :
    genSplit s ['\t'] = genSplitLoop ['\t'] (s.count '\t') s := by
  have h : s.count '\t' ≤ s.length := List.count_le_length _ _
  simp only [genSplit, Count_singleton]
  rw [if_neg (by simp)]
  congr 1
  split <;> omega

theorem genSplit_tab_ne_nil (s : List Char) : genSplit s ['\t'] ≠ [] := by
  rw [genSplit_tab]
  exact genSplitLoop_ne_nil _ _ _

theorem Split_tab_ne_nil (s : String) : Split s "\t" ≠ [] := by
  simp only [Split, ne_eq, List.map_eq_nil_iff]
  exact genSplit_tab_ne_nil s.data

theorem Split_tab_getLast (s v : String) (h : (Split s "\t").getLast? = some v) :
    '\t' ∉ v.data ∧ (s = v ∨ ∃ pre : String, s = pre ++ "\t" ++ v) := by
  simp only [Split, List.getLast?_map, Option.map_eq_some'] at h
  obtain ⟨l, hl, rfl⟩ := h
  rw [genSplit_tab] at hl
  obtain ⟨h1, h2⟩ := genSplitLoop_getLast '\t' _ s.data (le_refl _) l hl
  refine ⟨h1, ?_⟩
  rcases h2 with h2 | ⟨pre, h2⟩
  · left
    exact String.ext h2
  · right
    refine ⟨String.mk pre, String.ext ?_⟩
    simp [h2, String.data_append]

theorem Split_tab_of_not_mem (s : String) (h : '\t' ∉ s.data) : Split s "\t" = [s] := by
  have hd : ("\t" : String).data = ['\t'] := rfl
  simp only [Split, hd, genSplit_tab, List.count_eq_zero_of_not_mem h, genSplitLoop]
  rfl

end strings

/-- The last element of a non-empty list is what the index `len - 1` selects. -/
theorem goIndex_last {α : Type} (xs : List α) (h : xs ≠ []) :
    goIndex xs ((xs.length : Int) - 1) = .ret (xs.getLast h) := by
  have hpos : 0 < xs.length := List.length_pos.2 h
  have h1 : ¬ ((xs.length : Int) - 1 < 0) := by omega
  have h2 : ((xs.length : Int) - 1).toNat = xs.length - 1 := by omega
  simp only [goIndex, h1, if_false, h2]
  rw [List.get?_eq_get (by omega)]
  simp [List.getLast_eq_getElem]

/-! ## The type registry and `message` -/

/-- Indexing a map with a key it does not hold gives the zero value. -/
theorem mapIndex_of_not_mem (m : List (String × Nat)) (k : String)
    (h : k ∉ m.map Prod.fst) : mapIndex m k = 0 := by
  have hn : m.lookup k = none := by
    rw [List.lookup_eq_none_iff]
    intro p hp
    have hne : k ≠ p.1 := fun hk => h (List.mem_map.2 ⟨p, hp, hk.symm⟩)
    simpa using hne
  simp [mapIndex, hn]

/-- C1. The lookup `recs[typ]` used by `message` is total: each of the 33 lower-case
mnemonics gives its DNS type number, and every other string, among them the empty
string and the mis-cased `A` and `MX`, gives 0. -/
theorem recs_lookup_total :
    (mapIndex recs "a" = 1 ∧ mapIndex recs "ns" = 2 ∧ mapIndex recs "cname" = 5
      ∧ mapIndex recs "soa" = 6 ∧ mapIndex recs "mb" = 7 ∧ mapIndex recs "mg" = 8
      ∧ mapIndex recs "mr" = 9 ∧ mapIndex recs "ptr" = 12 ∧ mapIndex recs "hinfo" = 13
      ∧ mapIndex recs "minfo" = 14 ∧ mapIndex recs "mx" = 15 ∧ mapIndex recs "txt" = 16
      ∧ mapIndex recs "rp" = 17 ∧ mapIndex recs "afsdb" = 18 ∧ mapIndex recs "x25" = 19
      ∧ mapIndex recs "isdn" = 20 ∧ mapIndex recs "rt" = 21 ∧ mapIndex recs "nsapptr" = 23
      ∧ mapIndex recs "aaaa" = 28 ∧ mapIndex recs "loc" = 29 ∧ mapIndex recs "srv" = 33
      ∧ mapIndex recs "atma" = 34 ∧ mapIndex recs "naptr" = 35 ∧ mapIndex recs "cert" = 37
      ∧ mapIndex recs "dname" = 39 ∧ mapIndex recs "ds" = 43 ∧ mapIndex recs "rrsig" = 46
      ∧ mapIndex recs "nsec" = 47 ∧ mapIndex recs "dnskey" = 48 ∧ mapIndex recs "dhcid" = 49
      ∧ mapIndex recs "nsec3" = 50 ∧ mapIndex recs "tlsa" = 52 ∧ mapIndex recs "caa" = 257)
    ∧ (∀ typ : String,
        typ ∉ ["a", "aaaa", "cname", "mx", "ns", "ptr", "soa", "srv", "txt", "dnskey", "ds",
               "nsec", "nsec3", "rrsig", "afsdb", "atma", "caa", "cert", "dhcid", "dname",
               "hinfo", "isdn", "loc", "mb", "mg", "minfo", "mr", "naptr", "nsapptr", "rp",
               "rt", "tlsa", "x25"] →
        mapIndex recs typ = 0)
    ∧ mapIndex recs "" = 0 ∧ mapIndex recs "A" = 0 ∧ mapIndex recs "MX" = 0 := by
  refine ⟨by decide, ?_, by decide, by decide, by decide⟩
  intro typ h
  exact mapIndex_of_not_mem recs typ h

/-- C1, at an input: `Mx` is none of the mnemonics, and its code is 0. -/
theorem recs_lookup_total_witness :
    "Mx" ∉ ["a", "aaaa", "cname", "mx", "ns", "ptr", "soa", "srv", "txt", "dnskey", "ds",
            "nsec", "nsec3", "rrsig", "afsdb", "atma", "caa", "cert", "dhcid", "dname",
            "hinfo", "isdn", "loc", "mb", "mg", "minfo", "mr", "naptr", "nsapptr", "rp",
            "rt", "tlsa", "x25"]
      ∧ mapIndex recs "Mx" = 0 :=
  ⟨by decide, recs_lookup_total.2.1 "Mx" (by decide)⟩

/-- C8. `message(typ, name)` is a query message (not a response) with the
recursion-desired flag set and exactly one question: the name unchanged, the registry
code of `typ`, class Internet (1). A `typ` that is no mnemonic is not rejected: the
question has type 0. For `mx` the question has type 15, for `aaaa` type 28. -/
theorem message_one_question :
    (∀ (id : Nat) (typ name : String),
      message id typ name
          = { dns.newMsg with Id := id, RecursionDesired := true,
                              Question := [⟨name, mapIndex recs typ, 1⟩] }
        ∧ (message id typ name).RecursionDesired = true
        ∧ (message id typ name).Response = false
        ∧ (message id typ name).Question.length = 1
        ∧ (message id typ name).Question = [⟨name, mapIndex recs typ, 1⟩])
    ∧ (∀ (id : Nat) (typ name : String), typ ∉ recs.map Prod.fst →
        (message id typ name).Question = [⟨name, 0, 1⟩])
    ∧ (message 7 "bogus" "no dot, not a name").Question = [⟨"no dot, not a name", 0, 1⟩]
    ∧ (message 7 "mx" "example.com.").Question = [⟨"example.com.", 15, 1⟩]
    ∧ (message 8 "aaaa" "example.com").Question = [⟨"example.com", 28, 1⟩] := by
  refine ⟨fun id typ name => ⟨rfl, rfl, rfl, rfl, rfl⟩, ?_, by decide, by decide, by decide⟩
  intro id typ name h
  show [dns.Question.mk name (mapIndex recs typ) dns.ClassINET] = _
  rw [mapIndex_of_not_mem recs typ h]
  rfl

/-- C8, at an input: `AAAA` in upper case is no key of the registry, and the question
built for it has type 0. -/
theorem message_one_question_witness :
    "AAAA" ∉ recs.map Prod.fst
      ∧ (message 99 "AAAA" "example.com").Question = [⟨"example.com", 0, 1⟩] :=
  ⟨by decide, message_one_question.2.1 99 "AAAA" "example.com" (by decide)⟩

/-! ## The translation of the answers -/

/-- The index expression `parts[len(parts)-1]` of `query` never panics: it yields the
last field. -/
theorem goIndex_Split_tab (s : String) :
    goIndex (strings.Split s "\t") (((strings.Split s "\t").length : Int) - 1)
      = .ret (lastField s) := by
  rw [goIndex_last _ (strings.Split_tab_ne_nil s)]
  simp [lastField, List.getLast?_eq_getLast _ (strings.Split_tab_ne_nil s)]

/-- The loop of `query` appends the translation of every answer, in order. -/
theorem rangeAnswer_eq (answers : List dns.RR) (replies : List Response) :
    rangeAnswer answers replies = .ret (replies ++ answers.map toResponse) := by
  induction answers generalizing replies with
  | nil => simp [rangeAnswer]
  | cons a rest ih =>
    simp only [rangeAnswer, goIndex_Split_tab, ih, List.map_cons, List.append_assoc,
      List.singleton_append]
    rfl

/-- The last field has no tab, and the rendering is the last field alone or ends with a
tab followed by the last field. -/
theorem lastField_spec (s : String) :
    '\t' ∉ (lastField s).data ∧ (s = lastField s ∨ ∃ pre : String, s = pre ++ "\t" ++ lastField s) := by
  apply strings.Split_tab_getLast
  simp [lastField, List.getLast?_eq_getLast _ (strings.Split_tab_ne_nil s)]

/-- What `query` does when the exchange returns a reply and no error. -/
theorem query_of_reply (w : World) (typ name : String) (reply : dns.Msg)
    (he : (w.Exchange ⟨"tcp"⟩ (message w.Id typ name) "8.8.8.8:53").err = none)
    (hr : (w.Exchange ⟨"tcp"⟩ (message w.Id typ name) "8.8.8.8:53").r = some reply) :
    query w typ name
      = ⟨[⟨⟨"tcp"⟩, message w.Id typ name, "8.8.8.8:53"⟩],
         .ret (some (.of (reply.Answer.map toResponse)), none)⟩ := by
  have he2 : (w.Exchange { dns.newClient with Net := "tcp" } (message w.Id typ name) "8.8.8.8:53").err = none := he
  have hr2 : (w.Exchange { dns.newClient with Net := "tcp" } (message w.Id typ name) "8.8.8.8:53").r = some reply := hr
  simp only [query, he2, hr2, rangeAnswer_eq, List.nil_append]

/-- What `query` does when the exchange returns an error. -/
theorem query_of_error (w : World) (typ name : String) (e : GoError)
    (he : (w.Exchange ⟨"tcp"⟩ (message w.Id typ name) "8.8.8.8:53").err = some e) :
    query w typ name
      = ⟨[⟨⟨"tcp"⟩, message w.Id typ name, "8.8.8.8:53"⟩], .ret (none, some e)⟩ := by
  have he2 : (w.Exchange { dns.newClient with Net := "tcp" } (message w.Id typ name) "8.8.8.8:53").err = some e := he
  simp only [query, he2]

/-- What `handler` does with a POST request whose body decodes. -/
theorem handler_of_decoded (w : World) (request : events.APIGatewayProxyRequest) (req : Request)
    (hm : request.HTTPMethod = "POST")
    (hd : json.Decode request.Body ⟨"", ""⟩ = .ret (req, none)) :
    handler w request =
      match (query w req.Type_ req.DomainName).out with
      | .panic msg => ⟨(query w req.Type_ req.DomainName).calls, .panic msg⟩
      | .ret (_, some err) =>
        ⟨(query w req.Type_ req.DomainName).calls,
         .ret ({ StatusCode := 500, Headers := none, MultiValueHeaders := none,
                 Body := "Failed to make DNS request: " ++ err.Error,
                 IsBase64Encoded := false }, none)⟩
      | .ret (results, none) =>
        ⟨(query w req.Type_ req.DomainName).calls,
         .ret ({ StatusCode := 200, Headers := some standardHeaders,
                 MultiValueHeaders := none, Body := (json.Marshal results).1,
                 IsBase64Encoded := false }, none)⟩ := by
  simp only [handler, hm, hd, ne_eq, not_true_eq_false, if_false]

/-! ## The handler -/

/-- What `handler` does with a request whose method is not `POST`. -/
theorem handler_non_post_eq (w : World) (request : events.APIGatewayProxyRequest)
    (h : request.HTTPMethod ≠ "POST") :
    handler w request =
      ⟨[], .ret ({ StatusCode := 200, Headers := some standardHeaders,
                   MultiValueHeaders := none, Body := "", IsBase64Encoded := false }, none)⟩ := by
  simp only [handler, h, ne_eq, not_false_eq_true, if_true]

/-- C2. For every request whose method is not exactly `POST`, whatever its body,
`handler` returns a nil error and the response with status 200, the empty body and
exactly the three standard headers; no exchange with the resolver is performed (and the
body plays no part in the result). -/
theorem handler_non_post (w : World) (request : events.APIGatewayProxyRequest)
    (h : request.HTTPMethod ≠ "POST") :
    handler w request =
      ⟨[], .ret ({ StatusCode := 200,
                   Headers := some [("Content-Type", "application/json"),
                                    ("Access-Control-Allow-Origin", "*"),
                                    ("Access-Control-Allow-Headers", "*")],
                   MultiValueHeaders := none, Body := "", IsBase64Encoded := false }, none)⟩ := by
  rw [handler_non_post_eq w request h]
  rfl

/-- C2, at inputs: the methods `GET`, `OPTIONS`, `post` and the empty method, with a
body that would decode, with a body that would not, and with the empty body. -/
theorem handler_non_post_witness :
    ("GET" ≠ "POST" ∧ "OPTIONS" ≠ "POST" ∧ "post" ≠ "POST" ∧ "" ≠ "POST")
    ∧ (handler (worldReplying 7 [exampleA]) (eventOf "GET" exampleBody)).calls = []
    ∧ ((handler (worldReplying 7 [exampleA]) (eventOf "OPTIONS" "not json")).out
        = (handler (worldFailing 8 "down") (eventOf "post" "")).out)
    ∧ (handler (worldFailing 8 "down") (eventOf "" "")).out
        = .ret ({ StatusCode := 200,
                  Headers := some [("Content-Type", "application/json"),
                                   ("Access-Control-Allow-Origin", "*"),
                                   ("Access-Control-Allow-Headers", "*")],
                  MultiValueHeaders := none, Body := "", IsBase64Encoded := false }, none) :=
  ⟨by decide,
   by rw [handler_non_post _ (eventOf "GET" exampleBody) (by decide)],
   by rw [handler_non_post _ (eventOf "OPTIONS" "not json") (by decide),
          handler_non_post _ (eventOf "post" "") (by decide)],
   by rw [handler_non_post _ (eventOf "" "") (by decide)]⟩

/-- C4. For a POST request whose body decodes, if the exchange with the resolver returns
an error, then `query` returns a nil result together with that error, whatever reply
came along with the error, and `handler` returns a nil error and the response with
status 500 and the body `Failed to make DNS request: ` followed by the text of the
error. -/
theorem handler_exchange_error (w : World) (request : events.APIGatewayProxyRequest)
    (req : Request) (e : GoError)
    (hm : request.HTTPMethod = "POST")
    (hd : json.Decode request.Body ⟨"", ""⟩ = .ret (req, none))
    (he : (w.Exchange ⟨"tcp"⟩ (message w.Id req.Type_ req.DomainName) "8.8.8.8:53").err = some e) :
    (query w req.Type_ req.DomainName).out = .ret (none, some e)
    ∧ (handler w request).out
        = .ret ({ StatusCode := 500, Headers := none, MultiValueHeaders := none,
                  Body := "Failed to make DNS request: " ++ e.Error,
                  IsBase64Encoded := false }, none) := by
  rw [handler_of_decoded w request req hm hd, query_of_error w _ _ e he]
  exact ⟨rfl, rfl⟩

/-- C4, at an input: the resolver refuses the connection. -/
theorem handler_exchange_error_witness :
    (eventOf "POST" exampleBody).HTTPMethod = "POST"
    ∧ json.Decode (eventOf "POST" exampleBody).Body ⟨"", ""⟩ = .ret (⟨"example.com.", "a"⟩, none)
    ∧ (query (worldFailing 7 "dial tcp 8.8.8.8:53: connect: connection refused")
        "a" "example.com.").out
        = .ret (none, some ⟨"dial tcp 8.8.8.8:53: connect: connection refused"⟩)
    ∧ (handler (worldFailing 7 "dial tcp 8.8.8.8:53: connect: connection refused")
        (eventOf "POST" exampleBody)).out
        = .ret ({ StatusCode := 500, Headers := none, MultiValueHeaders := none,
                  Body := "Failed to make DNS request: dial tcp 8.8.8.8:53: connect: connection refused",
                  IsBase64Encoded := false }, none) :=
  ⟨rfl, by decide,
   (handler_exchange_error (worldFailing 7 "dial tcp 8.8.8.8:53: connect: connection refused")
      (eventOf "POST" exampleBody) ⟨"example.com.", "a"⟩ _ rfl (by decide) rfl).1,
   (handler_exchange_error (worldFailing 7 "dial tcp 8.8.8.8:53: connect: connection refused")
      (eventOf "POST" exampleBody) ⟨"example.com.", "a"⟩ _ rfl (by decide) rfl).2⟩

/-- C10. The index `parts[len(parts)-1]` of `query` is never out of range: splitting any
rendering on the tab character gives a non-empty list (the empty rendering gives the
list of the empty string), so the index yields a value, the loop over any answer
section ends without a panic, and for a rendering without a tab the value is the whole
rendering. -/
theorem split_last_index_in_range :
    (∀ s : String, strings.Split s "\t" ≠ [])
    ∧ (∀ s : String, ∃ v : String,
        goIndex (strings.Split s "\t") (((strings.Split s "\t").length : Int) - 1) = .ret v)
    ∧ (∀ (answers : List dns.RR) (replies : List Response), ∃ all : List Response,
        rangeAnswer answers replies = .ret all)
    ∧ (∀ s : String, '\t' ∉ s.data →
        strings.Split s "\t" = [s]
          ∧ goIndex (strings.Split s "\t") (((strings.Split s "\t").length : Int) - 1) = .ret s)
    ∧ strings.Split "" "\t" = [""] := by
  refine ⟨strings.Split_tab_ne_nil, fun s => ⟨_, goIndex_Split_tab s⟩,
    fun answers replies => ⟨_, rangeAnswer_eq answers replies⟩, ?_, by decide⟩
  intro s h
  have hs := strings.Split_tab_of_not_mem s h
  refine ⟨hs, ?_⟩
  rw [hs]
  rfl

/-- C10, at an input: a rendering without a tab character. -/
theorem split_last_index_in_range_witness :
    '\t' ∉ ("93.184.216.34" : String).data
      ∧ strings.Split "93.184.216.34" "\t" = ["93.184.216.34"]
      ∧ goIndex (strings.Split "93.184.216.34" "\t")
          (((strings.Split "93.184.216.34" "\t").length : Int) - 1) = .ret "93.184.216.34" :=
  ⟨by decide, split_last_index_in_range.2.2.2.1 "93.184.216.34" (by decide)⟩

/-- C6. When the exchange returns a reply and no error, `query` returns a sequence with
one element per answer record, in the order of the reply: element `i` carries the owner
name and the time-to-live of the header of answer `i`, and the canonical name of the type
code in that header, whatever mnemonic was requested. A request for `a` whose reply
starts with a CNAME record labels that element `CNAME`. The canonical names are those of
the package: the 33 types of the registry and the newer types are named as listed, and a
type without a name is `TYPE` followed by its number. -/
theorem query_one_result_per_answer :
    (∀ (w : World) (typ name : String) (reply : dns.Msg),
      (w.Exchange ⟨"tcp"⟩ (message w.Id typ name) "8.8.8.8:53").err = none →
      (w.Exchange ⟨"tcp"⟩ (message w.Id typ name) "8.8.8.8:53").r = some reply →
      ∃ results : List Response,
        (query w typ name).out = .ret (some (.of results), none)
        ∧ results.length = reply.Answer.length
        ∧ results.map (fun r => (r.Name, r.TTL, r.Type_))
            = reply.Answer.map
                (fun a => (a.Header.Name, a.Header.Ttl, dns.Type_String a.Header.Rrtype))
        ∧ ∀ (i : Nat) (a : dns.RR), reply.Answer[i]? = some a →
            ∃ r : Response, results[i]? = some r ∧ r.Name = a.Header.Name
              ∧ r.TTL = a.Header.Ttl ∧ r.Type_ = dns.Type_String a.Header.Rrtype)
    ∧ (query (worldReplying 7 [exampleCNAME, exampleA]) "a" "www.example.com.").out
        = .ret (some (.of [⟨"www.example.com.", "example.com.", "CNAME", 60⟩,
                           ⟨"example.com.", "93.184.216.34", "A", 300⟩]), none)
    ∧ recs.map (fun p => dns.Type_String p.2)
        = ["A", "AAAA", "CNAME", "MX", "NS", "PTR", "SOA", "SRV", "TXT", "DNSKEY", "DS", "NSEC",
           "NSEC3", "RRSIG", "AFSDB", "ATMA", "CAA", "CERT", "DHCID", "DNAME", "HINFO", "ISDN",
           "LOC", "MB", "MG", "MINFO", "MR", "NAPTR", "NSAP-PTR", "RP", "RT", "TLSA", "X25"]
    ∧ [45, 63, 64, 65, 128, 260, 261].map dns.Type_String
        = ["IPSECKEY", "ZONEMD", "SVCB", "HTTPS", "NXNAME", "AMTRELAY", "RESINFO"]
    ∧ (∀ t : Nat, dns.TypeToString.lookup t = none →
        dns.Type_String t = "TYPE" ++ strconv.FormatUint t)
    ∧ dns.Type_String 65280 = "TYPE65280" := by
  refine ⟨?_, by decide, by decide, by decide,
    fun t ht => by simp only [dns.Type_String, ht], by decide⟩
  intro w typ name reply he hr
  refine ⟨reply.Answer.map toResponse, ?_, by simp, ?_, ?_⟩
  · rw [query_of_reply w typ name reply he hr]
  · simp [toResponse, Function.comp_def]
  · intro i a ha
    exact ⟨toResponse a, by simp [ha], rfl, rfl, rfl⟩

/-- C6, at an input: a resolver that answers a request for `a` with a CNAME record
followed by an A record. -/
theorem query_one_result_per_answer_witness :
    ∃ results : List Response,
      (query (worldReplying 7 [exampleCNAME, exampleA]) "a" "www.example.com.").out
          = .ret (some (.of results), none)
      ∧ results.length = 2
      ∧ results.map (fun r => (r.Name, r.TTL, r.Type_))
          = [("www.example.com.", 60, "CNAME"), ("example.com.", 300, "A")] := by
  obtain ⟨results, h1, h2, h3, _⟩ :=
    query_one_result_per_answer.1 (worldReplying 7 [exampleCNAME, exampleA]) "a"
      "www.example.com." _ rfl rfl
  exact ⟨results, h1, h2, by rw [h3]; decide⟩

/-- C7, as stated, fails: for the MX record rendered as
`example.com.<tab>300<tab>IN<tab>MX<tab>10 mail.example.com.` the value is
`10 mail.example.com.`, not its last white-space-delimited field `mail.example.com.`;
and the TXT record with the data `hello world` keeps its whole quoted data. -/
theorem query_value_not_last_space_field :
    exampleMX.String = "example.com.\t300\tIN\tMX\t10 mail.example.com."
    ∧ (query (worldReplying 7 [exampleMX]) "mx" "example.com.").out
        = .ret (some (.of [⟨"example.com.", "10 mail.example.com.", "MX", 300⟩]), none)
    ∧ ("10 mail.example.com." : String) ≠ "mail.example.com."
    ∧ (query (worldReplying 7 [exampleTXT]) "txt" "example.com.").out
        = .ret (some (.of [⟨"example.com.", "\"hello world\"", "TXT", 300⟩]), none) := by
  decide

/-- C7, amended. For every answer record, the value `query` produces is the final
tab-delimited field of the rendering of the record: it holds no tab, and the rendering
is the value alone (when it has no tab) or ends with a tab followed by the value. Spaces
do not delimit: the MX record keeps `10 mail.example.com.` and the TXT record keeps its
whole quoted data. -/
theorem query_value_last_tab_field :
    (∀ (w : World) (typ name : String) (reply : dns.Msg),
      (w.Exchange ⟨"tcp"⟩ (message w.Id typ name) "8.8.8.8:53").err = none →
      (w.Exchange ⟨"tcp"⟩ (message w.Id typ name) "8.8.8.8:53").r = some reply →
      ∃ results : List Response,
        (query w typ name).out = .ret (some (.of results), none)
        ∧ ∀ (i : Nat) (a : dns.RR), reply.Answer[i]? = some a →
            ∃ r : Response, results[i]? = some r
              ∧ '\t' ∉ r.Value.data
              ∧ (a.String = r.Value ∨ ∃ pre : String, a.String = pre ++ "\t" ++ r.Value))
    ∧ (query (worldReplying 7 [exampleMX]) "mx" "example.com.").out
        = .ret (some (.of [⟨"example.com.", "10 mail.example.com.", "MX", 300⟩]), none)
    ∧ (query (worldReplying 7 [exampleTXT]) "txt" "example.com.").out
        = .ret (some (.of [⟨"example.com.", "\"hello world\"", "TXT", 300⟩]), none) := by
  refine ⟨?_, by decide, by decide⟩
  intro w typ name reply he hr
  refine ⟨reply.Answer.map toResponse, ?_, ?_⟩
  · rw [query_of_reply w typ name reply he hr]
  · intro i a ha
    exact ⟨toResponse a, by simp [ha], (lastField_spec a.String).1, (lastField_spec a.String).2⟩

/-- C7 amended, at an input: the MX record. -/
theorem query_value_last_tab_field_witness :
    ∃ results : List Response,
      (query (worldReplying 7 [exampleMX]) "mx" "example.com.").out
          = .ret (some (.of results), none)
      ∧ ∃ r : Response, results[0]? = some r ∧ '\t' ∉ r.Value.data
          ∧ (exampleMX.String = r.Value ∨ ∃ pre : String, exampleMX.String = pre ++ "\t" ++ r.Value) := by
  obtain ⟨results, h1, h2⟩ :=
    query_value_last_tab_field.1 (worldReplying 7 [exampleMX]) "mx" "example.com." _ rfl rfl
  exact ⟨results, h1, h2 0 exampleMX rfl⟩

/-- The outcome of `query` depends on the world only through the error and the answer
section of the result of the exchange. -/
theorem query_out_congr (w1 w2 : World) (typ name : String)
    (h : sameReply (w1.Exchange ⟨"tcp"⟩ (message w1.Id typ name) "8.8.8.8:53")
                   (w2.Exchange ⟨"tcp"⟩ (message w2.Id typ name) "8.8.8.8:53")) :
    (query w1 typ name).out = (query w2 typ name).out := by
  obtain ⟨he, hr⟩ := h
  cases h1 : (w1.Exchange ⟨"tcp"⟩ (message w1.Id typ name) "8.8.8.8:53").err with
  | some e =>
    rw [query_of_error w1 typ name e h1, query_of_error w2 typ name e (by rw [← he, h1])]
  | none =>
    have h2 : (w2.Exchange ⟨"tcp"⟩ (message w2.Id typ name) "8.8.8.8:53").err = none := by
      rw [← he, h1]
    cases hr1 : (w1.Exchange ⟨"tcp"⟩ (message w1.Id typ name) "8.8.8.8:53").r with
    | none =>
      have hr2 : (w2.Exchange ⟨"tcp"⟩ (message w2.Id typ name) "8.8.8.8:53").r = none := by
        rw [hr1] at hr
        simpa using hr.symm
      have e1 : (w1.Exchange { dns.newClient with Net := "tcp" } (message w1.Id typ name) "8.8.8.8:53").err = none := h1
      have e2 : (w2.Exchange { dns.newClient with Net := "tcp" } (message w2.Id typ name) "8.8.8.8:53").err = none := h2
      have r1 : (w1.Exchange { dns.newClient with Net := "tcp" } (message w1.Id typ name) "8.8.8.8:53").r = none := hr1
      have r2 : (w2.Exchange { dns.newClient with Net := "tcp" } (message w2.Id typ name) "8.8.8.8:53").r = none := hr2
      simp only [query, e1, e2, r1, r2]
    | some m1 =>
      rw [hr1] at hr
      cases hr2 : (w2.Exchange ⟨"tcp"⟩ (message w2.Id typ name) "8.8.8.8:53").r with
      | none => rw [hr2] at hr; simp at hr
      | some m2 =>
        rw [hr2] at hr
        have hA : m1.Answer = m2.Answer := by simpa using hr
        rw [query_of_reply w1 typ name m1 h1 hr1, query_of_reply w2 typ name m2 h2 hr2, hA]

/-- C9. The response of `handler` is a function of the method, the body and the reply
of the resolver only: two invocations with the same method and the same body, against
resolvers whose replies carry the same error and the same answers, end the same way
(same status, headers and body), whatever the other fields of the two events and
whatever transaction ids were drawn; and so do the two runs of `query`. -/
theorem handler_deterministic (w1 w2 : World)
    (request1 request2 : events.APIGatewayProxyRequest)
    (hm : request1.HTTPMethod = request2.HTTPMethod)
    (hb : request1.Body = request2.Body)
    (hw : ∀ typ name : String,
      sameReply (w1.Exchange ⟨"tcp"⟩ (message w1.Id typ name) "8.8.8.8:53")
                (w2.Exchange ⟨"tcp"⟩ (message w2.Id typ name) "8.8.8.8:53")) :
    (handler w1 request1).out = (handler w2 request2).out
    ∧ ∀ typ name : String, (query w1 typ name).out = (query w2 typ name).out := by
  refine ⟨?_, fun typ name => query_out_congr w1 w2 typ name (hw typ name)⟩
  by_cases hp : request1.HTTPMethod = "POST"
  · have hp2 : request2.HTTPMethod = "POST" := by rw [← hm, hp]
    cases hd : json.Decode request1.Body ⟨"", ""⟩ with
    | panic msg =>
      have hd2 : json.Decode request2.Body ⟨"", ""⟩ = .panic msg := by rw [← hb, hd]
      simp only [handler, hp, hp2, hd, hd2, ne_eq, not_true_eq_false, if_false]
    | ret p =>
      obtain ⟨req, err⟩ := p
      have hd2 : json.Decode request2.Body ⟨"", ""⟩ = .ret (req, err) := by rw [← hb, hd]
      cases err with
      | some e => simp only [handler, hp, hp2, hd, hd2, ne_eq, not_true_eq_false, if_false]
      | none =>
        rw [handler_of_decoded w1 request1 req hp hd, handler_of_decoded w2 request2 req hp2 hd2]
        have hq := query_out_congr w1 w2 req.Type_ req.DomainName (hw _ _)
        rw [← hq]
        cases h : (query w1 req.Type_ req.DomainName).out with
        | panic msg => rfl
        | ret p =>
          obtain ⟨results, err⟩ := p
          cases err <;> rfl
  · have hp2 : request2.HTTPMethod ≠ "POST" := by rw [← hm]; exact hp
    rw [handler_non_post_eq w1 request1 hp, handler_non_post_eq w2 request2 hp2]

/-- C9, at an input: two events that differ in path and headers, and two worlds that
draw different transaction ids, with the same A record in the reply. -/
theorem handler_deterministic_witness :
    (handler (worldReplying 7 [exampleA]) (eventOf "POST" exampleBody)).out
      = (handler (worldReplying 40000 [exampleA])
          { eventOf "POST" exampleBody with
              Path := "/lookup", Headers := [("User-Agent", "curl")], IsBase64Encoded := true }).out :=
  (handler_deterministic (worldReplying 7 [exampleA]) (worldReplying 40000 [exampleA])
    (eventOf "POST" exampleBody)
    { eventOf "POST" exampleBody with
        Path := "/lookup", Headers := [("User-Agent", "curl")], IsBase64Encoded := true }
    rfl rfl (fun _ _ => ⟨rfl, rfl⟩)).1

/-! ## The decoder reads a valid JSON document from the front of the body -/

namespace json

theorem Running_reset : scanner.reset.Running := by
  simp [scanner.Running, scanner.reset]

theorem StepOK_ite {P : Prop} [Decidable P] {a b sp : scanner × Opcode}
    (ha : StepOK a sp) (hb : StepOK b sp) : StepOK (if P then a else b) sp := by
  split <;> assumption

theorem stateEndValue_ok (s : scanner) (c : Char) (h : s.Running) :
    StepOK (stateEndValue s c) (stateEndValue s ' ') := by
  obtain ⟨step, endTop, ps, err⟩ := s
  obtain ⟨he, hs, ht, hb⟩ := h
  simp only at he hs ht hb
  subst he
  rcases ps with _ | ⟨p, rest⟩
  · simp only [stateEndValue, stateEndTop, scanner.error, StepOK]
    split <;> simp [isSpace]
  · cases p <;>
      simp only [stateEndValue, scanner.error, scanner.popParseState, StepOK, scanner.Running] <;>
      split_ifs <;> simp_all

theorem stateBeginValue_ok (s : scanner) (c : Char) (h : s.Running) (sp : scanner × Opcode) :
    StepOK (stateBeginValue s c) sp := by
  obtain ⟨step, endTop, ps, err⟩ := s
  obtain ⟨he, hs, ht, hb⟩ := h
  simp only at he hs ht hb
  subst he
  unfold stateBeginValue
  repeat' apply StepOK_ite
  all_goals simp_all [StepOK, scanner.Running, scanner.error]

theorem stateBeginString_ok (s : scanner) (c : Char) (h : s.Running) (sp : scanner × Opcode) :
    StepOK (stateBeginString s c) sp := by
  obtain ⟨step, endTop, ps, err⟩ := s
  obtain ⟨he, hs, ht, hb⟩ := h
  simp only at he hs ht hb
  subst he
  unfold stateBeginString
  repeat' apply StepOK_ite
  all_goals simp_all [StepOK, scanner.Running, scanner.error]

theorem stateInString_ok (s : scanner) (c : Char) (h : s.Running)
    (sp : scanner × Opcode) :
    StepOK (stateInString s c) sp := by
  obtain ⟨step, endTop, ps, err⟩ := s
  obtain ⟨he, hs, ht, hb⟩ := h
  simp only at he hs ht hb
  subst he
  unfold stateInString
  repeat' apply StepOK_ite
  all_goals simp_all [StepOK, scanner.Running, scanner.error]

theorem stateInStringEsc_ok (s : scanner) (c : Char) (h : s.Running)
    (sp : scanner × Opcode) :
    StepOK (stateInStringEsc s c) sp := by
  obtain ⟨step, endTop, ps, err⟩ := s
  obtain ⟨he, hs, ht, hb⟩ := h
  simp only at he hs ht hb
  subst he
  unfold stateInStringEsc
  repeat' apply StepOK_ite
  all_goals simp_all [StepOK, scanner.Running, scanner.error]

theorem stateInStringEscHex_ok (next : StepFn) (s : scanner) (c : Char) (h : s.Running)
    (h1 : next ≠ .stateError) (h2 : next ≠ .stateEndTop) (h3 : next ≠ .stateBeginValueOrEmpty)
    (sp : scanner × Opcode) :
    StepOK (stateInStringEscHex next s c) sp := by
  obtain ⟨step, endTop, ps, err⟩ := s
  obtain ⟨he, hs, ht, hb⟩ := h
  simp only at he hs ht hb
  subst he
  unfold stateInStringEscHex
  repeat' apply StepOK_ite
  all_goals simp_all [StepOK, scanner.Running, scanner.error]

theorem stateLiteral_ok (want : Char) (next : StepFn) (context : String) (s : scanner) (c : Char) (h : s.Running)
    (h1 : next ≠ .stateError) (h2 : next ≠ .stateEndTop) (h3 : next ≠ .stateBeginValueOrEmpty)
    (sp : scanner × Opcode) :
    StepOK (stateLiteral want next context s c) sp := by
  obtain ⟨step, endTop, ps, err⟩ := s
  obtain ⟨he, hs, ht, hb⟩ := h
  simp only at he hs ht hb
  subst he
  unfold stateLiteral
  repeat' apply StepOK_ite
  all_goals simp_all [StepOK, scanner.Running, scanner.error]

theorem stateNeg_ok (s : scanner) (c : Char) (h : s.Running)
    (sp : scanner × Opcode) :
    StepOK (stateNeg s c) sp := by
  obtain ⟨step, endTop, ps, err⟩ := s
  obtain ⟨he, hs, ht, hb⟩ := h
  simp only at he hs ht hb
  subst he
  unfold stateNeg
  repeat' apply StepOK_ite
  all_goals simp_all [StepOK, scanner.Running, scanner.error]

theorem stateDot_ok (s : scanner) (c : Char) (h : s.Running)
    (sp : scanner × Opcode) :
    StepOK (stateDot s c) sp := by
  obtain ⟨step, endTop, ps, err⟩ := s
  obtain ⟨he, hs, ht, hb⟩ := h
  simp only at he hs ht hb
  subst he
  unfold stateDot
  repeat' apply StepOK_ite
  all_goals simp_all [StepOK, scanner.Running, scanner.error]

theorem stateESign_ok (s : scanner) (c : Char) (h : s.Running)
    (sp : scanner × Opcode) :
    StepOK (stateESign s c) sp := by
  obtain ⟨step, endTop, ps, err⟩ := s
  obtain ⟨he, hs, ht, hb⟩ := h
  simp only at he hs ht hb
  subst he
  unfold stateESign
  repeat' apply StepOK_ite
  all_goals simp_all [StepOK, scanner.Running, scanner.error]

theorem step_set_ok (s : scanner) (next : StepFn) (op : Opcode) (h : s.Running)
    (h1 : next ≠ .stateError) (h2 : next ≠ .stateEndTop) (h3 : next ≠ .stateBeginValueOrEmpty)
    (h4 : op ≠ .scanError) (h5 : op ≠ .scanEnd) (h6 : op ≠ .scanEndObject)
    (h7 : op ≠ .scanEndArray) (sp : scanner × Opcode) :
    StepOK ({ s with step := next }, op) sp := by
  obtain ⟨he, hs, ht, hb⟩ := h
  simp_all [StepOK, scanner.Running]

theorem step_same_ok (s : scanner) (op : Opcode) (h : s.Running)
    (h4 : op ≠ .scanError) (h5 : op ≠ .scanEnd) (h6 : op ≠ .scanEndObject)
    (h7 : op ≠ .scanEndArray) (sp : scanner × Opcode) :
    StepOK (s, op) sp := by
  simp_all [StepOK]

theorem stateBeginValueOrEmpty_ok (s : scanner) (c : Char) (h : s.Running)
    (hp : s.parseState ≠ []) (sp : scanner × Opcode) :
    StepOK (stateBeginValueOrEmpty s c) sp := by
  have h2 := stateBeginValue_ok s c h sp
  unfold stateBeginValueOrEmpty
  refine StepOK_ite (step_same_ok s _ h (by decide) (by decide) (by decide) (by decide) sp)
    (StepOK_ite ?_ h2)
  obtain ⟨step, endTop, ps, err⟩ := s
  obtain ⟨he, hs, ht, hb⟩ := h
  simp only at he hs ht hb hp
  subst he
  rcases ps with _ | ⟨p, rest⟩
  · exact absurd rfl hp
  · cases p <;>
      simp only [stateEndValue, scanner.error, scanner.popParseState, StepOK,
        scanner.Running] <;>
      split_ifs <;> simp_all

theorem stateBeginStringOrEmpty_ok (s : scanner) (c : Char) (h : s.Running)
    (sp : scanner × Opcode) :
    StepOK (stateBeginStringOrEmpty s c) sp := by
  have h2 := stateBeginString_ok s c h sp
  unfold stateBeginStringOrEmpty
  refine StepOK_ite (step_same_ok s _ h (by decide) (by decide) (by decide) (by decide) sp)
    (StepOK_ite ?_ h2)
  obtain ⟨step, endTop, ps, err⟩ := s
  obtain ⟨he, hs, ht, hb⟩ := h
  simp only at he hs ht hb
  subst he
  rcases ps with _ | ⟨p, rest⟩ <;>
    simp only [stateEndValue, scanner.error, scanner.popParseState, StepOK, scanner.Running,
      List.tail] <;>
    split_ifs <;> simp_all

theorem state0_ok (s : scanner) (c : Char) (h : s.Running) :
    StepOK (state0 s c) (state0 s ' ') := by
  have e : state0 s ' ' = stateEndValue s ' ' := by simp [state0]
  rw [e]
  unfold state0
  exact StepOK_ite (step_set_ok s _ _ h (by decide) (by decide) (by decide) (by decide)
      (by decide) (by decide) (by decide) _)
    (StepOK_ite (step_set_ok s _ _ h (by decide) (by decide) (by decide) (by decide)
      (by decide) (by decide) (by decide) _) (stateEndValue_ok s c h))

theorem state1_ok (s : scanner) (c : Char) (h : s.Running) :
    StepOK (state1 s c) (state1 s ' ') := by
  have e : state1 s ' ' = state0 s ' ' := by simp [state1, isDigit]
  rw [e]
  unfold state1
  exact StepOK_ite (step_set_ok s _ _ h (by decide) (by decide) (by decide) (by decide)
      (by decide) (by decide) (by decide) _) (state0_ok s c h)

theorem stateDot0_ok (s : scanner) (c : Char) (h : s.Running) :
    StepOK (stateDot0 s c) (stateDot0 s ' ') := by
  have e : stateDot0 s ' ' = stateEndValue s ' ' := by simp [stateDot0, isDigit]
  rw [e]
  unfold stateDot0
  exact StepOK_ite (step_same_ok s _ h (by decide) (by decide) (by decide) (by decide) _)
    (StepOK_ite (step_set_ok s _ _ h (by decide) (by decide) (by decide) (by decide)
      (by decide) (by decide) (by decide) _) (stateEndValue_ok s c h))

theorem stateE_ok (s : scanner) (c : Char) (h : s.Running) (sp : scanner × Opcode) :
    StepOK (stateE s c) sp := by
  unfold stateE
  exact StepOK_ite (step_set_ok s _ _ h (by decide) (by decide) (by decide) (by decide)
      (by decide) (by decide) (by decide) _) (stateESign_ok s c h sp)

theorem stateE0_ok (s : scanner) (c : Char) (h : s.Running) :
    StepOK (stateE0 s c) (stateE0 s ' ') := by
  have e : stateE0 s ' ' = stateEndValue s ' ' := by simp [stateE0, isDigit]
  rw [e]
  unfold stateE0
  exact StepOK_ite (step_same_ok s _ h (by decide) (by decide) (by decide) (by decide) _)
    (stateEndValue_ok s c h)

theorem stateEndTop_ok (s : scanner) (c : Char) (ht : s.endTop = true) :
    StepOK (stateEndTop s c) (stateEndTop s ' ') := by
  simp only [stateEndTop, scanner.error, StepOK]
  split_ifs <;> simp_all [isSpace]

/-- Every step of a running scanner meets `StepOK`. -/
theorem stepFn_ok (s : scanner) (c : Char) (h : s.Running) :
    StepOK (s.stepFn c) (s.stepFn ' ') := by
  obtain ⟨step, endTop, ps, err⟩ := s
  cases step <;> simp only [scanner.stepFn]
  · exact stateBeginValueOrEmpty_ok _ c h (h.2.2.2 rfl) _
  · exact stateBeginValue_ok _ c h _
  · exact stateBeginStringOrEmpty_ok _ c h _
  · exact stateBeginString_ok _ c h _
  · exact stateEndValue_ok _ c h
  · exact stateEndTop_ok _ c (h.2.2.1 rfl)
  · exact stateInString_ok _ c h _
  · exact stateInStringEsc_ok _ c h _
  · exact stateInStringEscHex_ok _ _ c h (by decide) (by decide) (by decide) _
  · exact stateInStringEscHex_ok _ _ c h (by decide) (by decide) (by decide) _
  · exact stateInStringEscHex_ok _ _ c h (by decide) (by decide) (by decide) _
  · exact stateInStringEscHex_ok _ _ c h (by decide) (by decide) (by decide) _
  · exact stateNeg_ok _ c h _
  · exact state1_ok _ c h
  · exact state0_ok _ c h
  · exact stateDot_ok _ c h _
  · exact stateDot0_ok _ c h
  · exact stateE_ok _ c h _
  · exact stateESign_ok _ c h _
  · exact stateE0_ok _ c h
  · exact stateLiteral_ok _ _ _ _ c h (by decide) (by decide) (by decide) _
  · exact stateLiteral_ok _ _ _ _ c h (by decide) (by decide) (by decide) _
  · exact stateLiteral_ok _ _ _ _ c h (by decide) (by decide) (by decide) _
  · exact stateLiteral_ok _ _ _ _ c h (by decide) (by decide) (by decide) _
  · exact stateLiteral_ok _ _ _ _ c h (by decide) (by decide) (by decide) _
  · exact stateLiteral_ok _ _ _ _ c h (by decide) (by decide) (by decide) _
  · exact stateLiteral_ok _ _ _ _ c h (by decide) (by decide) (by decide) _
  · exact stateLiteral_ok _ _ _ _ c h (by decide) (by decide) (by decide) _
  · exact stateLiteral_ok _ _ _ _ c h (by decide) (by decide) (by decide) _
  · exact stateLiteral_ok _ _ _ _ c h (by decide) (by decide) (by decide) _
  · exact absurd rfl h.2.1

theorem eof_of_scanEnd (s : scanner) (c : Char) (h : s.Running)
    (he : (s.stepFn c).2 = .scanEnd) : s.eof.2 = .scanEnd := by
  have h3 := (stepFn_ok s c h).2.2.1 he
  obtain ⟨herr, -, -, -⟩ := h
  unfold scanner.eof
  simp only [herr, Option.isSome_none, Bool.false_eq_true, if_false]
  split_ifs <;> rfl

theorem eof_of_endTop (s : scanner) (h : s.Running) (he : s.endTop = true) :
    s.eof.2 = .scanEnd := by
  obtain ⟨herr, -, -, -⟩ := h
  unfold scanner.eof
  simp [herr, he]

theorem stateEndValue_space_nil (s : scanner) (h : (stateEndValue s ' ').2 = .scanEnd) :
    s.parseState = [] := by
  obtain ⟨step, endTop, ps, err⟩ := s
  rcases ps with _ | ⟨p, rest⟩
  · rfl
  · simp [stateEndValue, isSpace] at h

theorem stateEndValue_space_cons (s : scanner) (h : s.parseState ≠ [])
    (hs : s.step = .stateEndValue) : (stateEndValue s ' ').1 = s := by
  obtain ⟨step, endTop, ps, err⟩ := s
  rcases ps with _ | ⟨p, rest⟩
  · exact absurd rfl h
  · simp only at hs
    subst hs
    simp [stateEndValue, isSpace]

theorem readValueLoop_cons (buf : List Char) (s : scanner) (c : Char) (rest : List Char)
    (k : Nat) :
    readValueLoop buf s (c :: rest) k =
      if (s.stepFn c).2 = .scanEnd then (k, none)
      else if (s.stepFn c).2 = .scanEndObject ∨ (s.stepFn c).2 = .scanEndArray then
        if (stateEndValue (s.stepFn c).1 ' ').2 = .scanEnd then (k + 1, none)
        else readValueLoop buf (stateEndValue (s.stepFn c).1 ' ').1 rest (k + 1)
      else if (s.stepFn c).2 = .scanError then (0, (s.stepFn c).1.err.map .Syntax)
      else readValueLoop buf (s.stepFn c).1 rest (k + 1) := by
  rw [readValueLoop]
  rcases s.stepFn c with ⟨s2, op⟩
  cases op <;> simp only [reduceCtorEq, if_false, if_true, or_false, false_or, or_true] <;>
    (rcases stateEndValue s2 ' ' with ⟨s3, op3⟩; cases op3 <;> simp)

/-- What `readValue` accepts is a valid JSON document: when the scanning loop, started
in a running state with `k` characters consumed, returns `n` without an error, the
`n - k` characters it consumed pass `checkValid`. -/
theorem readValueLoop_valid (buf : List Char) :
    ∀ (data : List Char) (s : scanner) (k n : Nat), s.Running →
      readValueLoop buf s data k = (n, none) →
      ∃ m, m ≤ data.length ∧ n = k + m ∧ checkValidLoop s (data.take m) = true := by
  intro data
  induction data with
  | nil =>
    intro s k n hs h
    simp only [readValueLoop] at h
    split_ifs at h with h1
    · simp only [Prod.mk.injEq, and_true] at h
      refine ⟨0, le_refl _, by omega, ?_⟩
      simp [checkValidLoop, eof_of_scanEnd s ' ' hs h1]
    · simp at h
    · simp at h
  | cons c rest ih =>
    intro s k n hs h
    rw [readValueLoop_cons] at h
    have hok := stepFn_ok s c hs
    split_ifs at h with h1 h2 h3 h4
    · simp only [Prod.mk.injEq, and_true] at h
      refine ⟨0, Nat.zero_le _, by omega, ?_⟩
      simp [checkValidLoop, eof_of_scanEnd s c hs h1]
    · simp only [Prod.mk.injEq, and_true] at h
      have hne : (s.stepFn c).2 ≠ .scanError := by rcases h2 with h2 | h2 <;> simp [h2]
      have hrun := hok.1 hne h1
      have hnil := stateEndValue_space_nil _ h3
      have htop := (hok.2.2.2 h2).1 hnil
      refine ⟨1, by simp, by omega, ?_⟩
      simp [checkValidLoop, hne, eof_of_endTop _ hrun htop]
    · have hne : (s.stepFn c).2 ≠ .scanError := by rcases h2 with h2 | h2 <;> simp [h2]
      have hrun := hok.1 hne h1
      have hcons : (s.stepFn c).1.parseState ≠ [] := by
        intro hnil
        apply h3
        rcases hs2 : s.stepFn c with ⟨s2, op⟩
        rw [hs2] at hnil
        obtain ⟨step, endTop, ps, err⟩ := s2
        simp only at hnil
        subst hnil
        simp [stateEndValue, stateEndTop, isSpace]
      have hstep := (hok.2.2.2 h2).2 hcons
      rw [stateEndValue_space_cons _ hcons hstep] at h
      obtain ⟨m, hm, hn, hv⟩ := ih _ _ _ hrun h
      refine ⟨m + 1, by simp; omega, by omega, ?_⟩
      simp [checkValidLoop, hne, hv]
    · simp only [Prod.mk.injEq, Option.map_eq_none'] at h
      exact absurd h.2 (hok.2.1 h4)
    · have hrun := hok.1 h4 h1
      obtain ⟨m, hm, hn, hv⟩ := ih _ _ _ hrun h
      refine ⟨m + 1, by simp; omega, by omega, ?_⟩
      simp [checkValidLoop, h4, hv]

/-- When `readValue` returns `n` without an error, the first `n` characters of the input
are a valid JSON document. -/
theorem readValue_valid (buf : List Char) (n : Nat) (h : readValue buf = (n, none)) :
    Valid (String.mk (buf.take n)) = true := by
  obtain ⟨m, -, hn, hv⟩ := readValueLoop_valid buf buf scanner.reset 0 n Running_reset h
  have : n = m := by omega
  subst this
  exact hv

/-- A body of which no leading part is a valid JSON document is rejected by `Decode`
before anything is unmarshalled. -/
theorem Decode_of_no_valid_prefix (body : String) (req : Request)
    (h : ∀ n : Nat, Valid (String.mk (body.data.take n)) = false) :
    ∃ err : error, Decode body req = .ret (req, some err) := by
  rcases hr : readValue body.data with ⟨n, e⟩
  cases e with
  | none =>
    have := readValue_valid body.data n hr
    rw [h n] at this
    exact absurd this (by decide)
  | some err => exact ⟨err, by simp only [Decode, hr]⟩

end json

/-- What `handler` does with a POST request whose body does not decode. -/
theorem handler_of_decode_error (w : World) (request : events.APIGatewayProxyRequest)
    (req : Request) (err : json.error)
    (hm : request.HTTPMethod = "POST")
    (hd : json.Decode request.Body ⟨"", ""⟩ = .ret (req, some err)) :
    handler w request =
      ⟨[], .ret ({ StatusCode := 500, Headers := none, MultiValueHeaders := none,
                   Body := "Failed to parse payload: " ++ err.Error,
                   IsBase64Encoded := false }, none)⟩ := by
  simp only [handler, hm, hd, ne_eq, not_true_eq_false, if_false]

/-! ## The fuel of the object loop is enough -/

namespace json

theorem eof_opcode (s : scanner) : s.eof.2 = .scanEnd ∨ s.eof.2 = .scanError := by
  simp only [scanner.eof]
  split_ifs <;> simp

theorem scanWhileLoop_length (op : Opcode) :
    ∀ (data : List Char) (s : scanner) (prev : Char),
      (scanWhileLoop op s data prev).2.2.1.length ≤ data.length
      ∧ (data ≠ [] → (scanWhileLoop op s data prev).2.2.1.length < data.length)
      ∧ (data = [] → (scanWhileLoop op s data prev).2.1 = .scanEnd
          ∨ (scanWhileLoop op s data prev).2.1 = .scanError) := by
  intro data
  induction data with
  | nil =>
    intro s prev
    simp only [scanWhileLoop]
    exact ⟨le_refl _, fun h => absurd rfl h, fun _ => eof_opcode s⟩
  | cons c rest ih =>
    intro s prev
    simp only [scanWhileLoop]
    split_ifs
    · simp
    · have := (ih (s.stepFn c).1 c).1
      simp only [List.length_cons, ne_eq, reduceCtorEq, not_false_eq_true, forall_const,
        false_implies, and_true]
      omega

theorem scanWhile_length (d : decodeState) (op : Opcode) :
    (d.scanWhile op).data.length ≤ d.data.length :=
  (scanWhileLoop_length op d.data d.scan d.prev).1

theorem scanWhile_length_lt (d : decodeState) (op : Opcode)
    (h : (d.scanWhile op).opcode = .scanBeginLiteral) :
    (d.scanWhile op).data.length < d.data.length := by
  by_cases hd : d.data = []
  · have := (scanWhileLoop_length op d.data d.scan d.prev).2.2 hd
    simp only [decodeState.scanWhile] at h
    rw [h] at this
    simp at this
  · exact (scanWhileLoop_length op d.data d.scan d.prev).2.1 hd

theorem rescanString_length : ∀ (n : Nat) (l : List Char), l.length ≤ n →
    (rescanString l).2.length ≤ l.length := by
  intro n
  induction n with
  | zero =>
    intro l h
    have : l = [] := List.length_eq_zero.1 (by omega)
    subst this
    simp [rescanString]
  | succ n ih =>
    intro l h
    match l with
    | [] => simp [rescanString]
    | [c] => simp [rescanString]
    | c :: c2 :: rest =>
      simp only [rescanString]
      split_ifs
      · have := ih rest (by simp only [List.length_cons] at h; omega)
        simp only [List.length_cons]
        omega
      · simp
      · have := ih (c2 :: rest) (by simp only [List.length_cons] at h ⊢; omega)
        simp only [List.length_cons] at this ⊢
        omega

theorem span_snd_length (p : Char → Bool) (l : List Char) :
    (l.span p).2.length ≤ l.length := by
  rw [List.span_eq_take_drop]
  simp [List.dropWhile_sublist p |>.length_le]

theorem rescanLiteral_length (d : decodeState) :
    d.rescanLiteral.1.data.length ≤ d.data.length := by
  have key : ∀ r : List Char × List Char, r.2.length ≤ d.data.length →
      (match r.2 with
        | c :: rest =>
          (({ d with scan := (stateEndValue d.scan c).1, opcode := (stateEndValue d.scan c).2,
                     data := rest, prev := c } : decodeState), d.prev :: r.1)
        | [] => ({ d with opcode := .scanEnd, data := [] }, d.prev :: r.1)).1.data.length
        ≤ d.data.length := by
    intro r hr
    split
    · rename_i c rest heq
      rw [heq] at hr
      simp only [List.length_cons] at hr ⊢
      omega
    · simp
  unfold decodeState.rescanLiteral
  apply key
  split_ifs
  · exact rescanString_length _ _ (le_refl _)
  · exact span_snd_length _ _
  · simp
  · simp
  · simp
  · simp

theorem skipLoop_length (depth : Nat) :
    ∀ (data : List Char) (s : scanner) (r : scanner × Opcode × List Char × Char),
      skipLoop depth s data = some r → r.2.2.1.length ≤ data.length := by
  intro data
  induction data with
  | nil => intro s r h; simp [skipLoop] at h
  | cons c rest ih =>
    intro s r h
    simp only [skipLoop] at h
    split_ifs at h
    · simp only [Option.some.injEq] at h
      subst h
      simp
    · have := ih _ _ h
      simp only [List.length_cons]
      omega

theorem skip_length (d d2 : decodeState) (h : d.skip = .ret d2) :
    d2.data.length ≤ d.data.length := by
  unfold decodeState.skip at h
  split at h
  · rename_i r hr
    simp only [Go.ret.injEq] at h
    subst h
    exact skipLoop_length _ _ _ _ hr
  · simp at h

theorem scanNext_length (d : decodeState) : d.scanNext.data.length ≤ d.data.length := by
  unfold decodeState.scanNext
  split
  · rename_i c rest heq
    simp [heq]
  · simp

theorem saveError_data (d : decodeState) (v : Target) (value : String) :
    (d.saveError v value).data = d.data := by
  unfold decodeState.saveError
  split <;> rfl

theorem literalStore_data (d d2 : decodeState) (item : List Char) (v : Target)
    (h : d.literalStore item v = .ret d2) : d2.data = d.data := by
  unfold decodeState.literalStore at h
  rcases item with _ | ⟨c, tl⟩
  · simp at h
  · simp only at h
    by_cases h1 : c = 'n'
    · rw [if_pos h1] at h
      simp only [Go.ret.injEq] at h
      subst h
      rfl
    rw [if_neg h1] at h
    by_cases h2 : c = 't' ∨ c = 'f'
    · rw [if_pos h2] at h
      simp only [Go.ret.injEq] at h
      subst h
      exact saveError_data _ _ _
    rw [if_neg h2] at h
    by_cases h3 : c = '"'
    · rw [if_pos h3] at h
      cases hu : unquoteBytes (c :: tl) with
      | none => rw [hu] at h; simp at h
      | some str =>
        rw [hu] at h
        cases v <;> simp only [Go.ret.injEq] at h <;> subst h <;>
          first | rfl | exact saveError_data _ _ _
    rw [if_neg h3] at h
    by_cases h4 : c ≠ '-' ∧ ¬ isDigit c
    · rw [if_pos h4] at h
      simp at h
    rw [if_neg h4] at h
    simp only [Go.ret.injEq] at h
    subst h
    exact saveError_data _ _ _

theorem valueField_length (d d2 : decodeState) (v : Target)
    (h : d.valueField v = .ret d2) : d2.data.length ≤ d.data.length := by
  unfold decodeState.valueField at h
  split at h
  · split at h
    · rename_i d3 hs
      simp only [Go.ret.injEq] at h
      subst h
      have h1 := skip_length _ _ hs
      have h2 := scanNext_length d3
      have h3 : (if v = .invalid then d else d.saveError v "array").data = d.data := by
        split_ifs <;> first | rfl | exact saveError_data _ _ _
      rw [h3] at h1
      omega
    · simp at h
  · split at h
    · rename_i d3 hs
      simp only [Go.ret.injEq] at h
      subst h
      have h1 := skip_length _ _ hs
      have h2 := scanNext_length d3
      have h3 : (if v = .invalid then d else d.saveError v "object").data = d.data := by
        split_ifs <;> first | rfl | exact saveError_data _ _ _
      rw [h3] at h1
      omega
    · simp at h
  · have h1 := rescanLiteral_length d
    split_ifs at h
    · simp only [Go.ret.injEq] at h
      subst h
      exact h1
    · have := literalStore_data _ _ _ _ h
      rw [this]
      exact h1
  · simp at h

/-- A round of the object loop that goes on has read at least one byte. -/
theorem objectRound_next_length (d d2 : decodeState) (h : objectRound d = .next d2) :
    d2.data.length < d.data.length := by
  unfold objectRound at h
  simp only at h
  by_cases h1 : (d.scanWhile .scanSkipSpace).opcode = .scanEndObject
  · rw [if_pos h1] at h
    simp at h
  rw [if_neg h1] at h
  by_cases h2 : (d.scanWhile .scanSkipSpace).opcode ≠ .scanBeginLiteral
  · rw [if_pos h2] at h
    simp at h
  rw [if_neg h2] at h
  have hb : (d.scanWhile .scanSkipSpace).opcode = .scanBeginLiteral := by
    simpa using h2
  have hlt := scanWhile_length_lt d .scanSkipSpace hb
  have hr := rescanLiteral_length (d.scanWhile .scanSkipSpace)
  cases hu : unquoteBytes (d.scanWhile .scanSkipSpace).rescanLiteral.2 with
  | none => rw [hu] at h; simp at h
  | some key =>
    rw [hu] at h
    simp only at h
    generalize hd4 : (if (d.scanWhile .scanSkipSpace).rescanLiteral.1.opcode = .scanSkipSpace
          then (d.scanWhile .scanSkipSpace).rescanLiteral.1.scanWhile .scanSkipSpace
          else (d.scanWhile .scanSkipSpace).rescanLiteral.1) = d4 at h
    have hs0 : d4.data.length ≤ (d.scanWhile .scanSkipSpace).rescanLiteral.1.data.length := by
      rw [← hd4]
      split_ifs
      · exact scanWhile_length _ _
      · exact le_refl _
    by_cases h3 : d4.opcode ≠ .scanObjectKey
    · rw [if_pos h3] at h
      simp at h
    rw [if_neg h3] at h
    have hs1 := scanWhile_length d4 .scanSkipSpace
    cases hv : (d4.scanWhile .scanSkipSpace).valueField (fieldFor key) with
    | panic m => rw [hv] at h; simp at h
    | ret d3 =>
      rw [hv] at h
      simp only at h
      have hv2 := valueField_length _ _ _ hv
      generalize hd5 : (if d3.opcode = .scanSkipSpace then d3.scanWhile .scanSkipSpace
          else d3) = d5 at h
      have hs3 : d5.data.length ≤ d3.data.length := by
        rw [← hd5]
        split_ifs
        · exact scanWhile_length _ _
        · exact le_refl _
      by_cases h4 : d5.opcode = .scanEndObject
      · rw [if_pos h4] at h
        simp at h
      rw [if_neg h4] at h
      by_cases h5 : d5.opcode ≠ .scanObjectValue
      · rw [if_pos h5] at h
        simp at h
      rw [if_neg h5] at h
      simp only [Round.next.injEq] at h
      subst h
      omega

/-- The result of the object loop does not depend on the fuel, once there is more fuel
than unread bytes: the fuel `d.data.length + 1` that `value` supplies never runs out. -/
theorem objectLoop_fuel : ∀ (fuel : Nat) (d : decodeState), d.data.length < fuel →
    objectLoop fuel d = objectLoop (d.data.length + 1) d := by
  have main : ∀ (n : Nat) (d : decodeState) (f1 f2 : Nat), d.data.length ≤ n →
      d.data.length < f1 → d.data.length < f2 → objectLoop f1 d = objectLoop f2 d := by
    intro n
    induction n with
    | zero =>
      intro d f1 f2 hn h1 h2
      obtain ⟨g1, rfl⟩ : ∃ g, f1 = g + 1 := ⟨f1 - 1, by omega⟩
      obtain ⟨g2, rfl⟩ : ∃ g, f2 = g + 1 := ⟨f2 - 1, by omega⟩
      simp only [objectLoop]
      cases hr : objectRound d with
      | done r => rfl
      | next d2 =>
        have := objectRound_next_length d d2 hr
        omega
    | succ n ih =>
      intro d f1 f2 hn h1 h2
      obtain ⟨g1, rfl⟩ : ∃ g, f1 = g + 1 := ⟨f1 - 1, by omega⟩
      obtain ⟨g2, rfl⟩ : ∃ g, f2 = g + 1 := ⟨f2 - 1, by omega⟩
      simp only [objectLoop]
      cases hr : objectRound d with
      | done r => rfl
      | next d2 =>
        have := objectRound_next_length d d2 hr
        exact ih d2 g1 g2 (by omega) (by omega) (by omega)
  intro fuel d h
  exact main d.data.length d fuel (d.data.length + 1) (le_refl _) h (by omega)

end json

/-! ## What follows the first JSON value is not read -/

namespace json

/-- A read that ended before the end of the input is not changed by further input. -/
theorem readValueLoop_append (buf buf2 tail : List Char) :
    ∀ (data : List Char) (s : scanner) (k n : Nat),
      readValueLoop buf s data k = (n, none) → n < k + data.length →
      readValueLoop buf2 s (data ++ tail) k = (n, none) := by
  intro data
  induction data with
  | nil =>
    intro s k n h hn
    simp only [readValueLoop] at h
    split_ifs at h
    · simp only [Prod.mk.injEq, and_true] at h
      simp at hn
      omega
    · simp at h
    · simp at h
  | cons c rest ih =>
    intro s k n h hn
    rw [List.cons_append, readValueLoop_cons]
    rw [readValueLoop_cons] at h
    split_ifs at h ⊢ with h1 h2 h3 h4
    · exact h
    · exact h
    · exact ih _ _ _ h (by simp only [List.length_cons] at hn; omega)
    · exact h
    · exact ih _ _ _ h (by simp only [List.length_cons] at hn; omega)

/-- A successful read is not changed by a space after the input, and it ends within the
input. -/
theorem readValueLoop_space (buf buf2 : List Char) :
    ∀ (data : List Char) (s : scanner) (k n : Nat),
      readValueLoop buf s data k = (n, none) →
      readValueLoop buf2 s (data ++ [' ']) k = (n, none) ∧ n ≤ k + data.length := by
  intro data
  induction data with
  | nil =>
    intro s k n h
    simp only [readValueLoop] at h
    split_ifs at h with h1
    · simp only [Prod.mk.injEq, and_true] at h
      subst h
      rw [List.nil_append, readValueLoop_cons, if_pos h1]
      exact ⟨rfl, le_refl _⟩
    · simp at h
    · simp at h
  | cons c rest ih =>
    intro s k n h
    rw [List.cons_append, readValueLoop_cons]
    rw [readValueLoop_cons] at h
    split_ifs at h ⊢ with h1 h2 h3 h4
    · simp only [Prod.mk.injEq, and_true] at h
      exact ⟨by rw [h], by omega⟩
    · simp only [Prod.mk.injEq, and_true] at h
      exact ⟨by rw [h], by simp only [List.length_cons]; omega⟩
    · have := ih _ _ _ h
      exact ⟨this.1, by simp only [List.length_cons]; omega⟩
    · simp only [Prod.mk.injEq, Option.map_eq_none'] at h
      exact ⟨by rw [h.1, h.2]; rfl, by omega⟩
    · have := ih _ _ _ h
      exact ⟨this.1, by simp only [List.length_cons]; omega⟩

/-- A body that is read without an error, followed by a space and any text, decodes like
the body alone. -/
theorem Decode_trailing (body tail : String) (req : Request) (n : Nat)
    (h : readValue body.data = (n, none)) :
    Decode (body ++ " " ++ tail) req = Decode body req := by
  have hd : (body ++ " " ++ tail).data = (body.data ++ [' ']) ++ tail.data := by
    simp [String.data_append]
  obtain ⟨h1, h2⟩ := readValueLoop_space body.data (body.data ++ [' ']) body.data
    scanner.reset 0 n h
  have h3 := readValueLoop_append (body.data ++ [' ']) ((body.data ++ [' ']) ++ tail.data)
    tail.data (body.data ++ [' ']) scanner.reset 0 n h1
    (by simp only [List.length_append, List.length_singleton]; omega)
  have h4 : readValue (body ++ " " ++ tail).data = (n, none) := by
    rw [hd]
    exact h3
  have h5 : List.take n ((body.data ++ [' ']) ++ tail.data) = List.take n body.data := by
    rw [List.append_assoc, List.take_append_of_le_length (by omega)]
  simp only [Decode, h4, h]
  rw [hd, h5]

end json

/-- The run of `handler` depends on the event through its method and what its body
decodes to. -/
theorem handler_congr (w : World) (request1 request2 : events.APIGatewayProxyRequest)
    (hm : request1.HTTPMethod = request2.HTTPMethod)
    (hd : json.Decode request1.Body ⟨"", ""⟩ = json.Decode request2.Body ⟨"", ""⟩) :
    handler w request1 = handler w request2 := by
  simp only [handler, hm, hd]

/-- A POST body that decodes, followed by a space and any text, is handled like the body
alone. -/
theorem handler_trailing (w : World) (request1 request2 : events.APIGatewayProxyRequest)
    (req : Request) (tail : String)
    (hm : request1.HTTPMethod = request2.HTTPMethod)
    (hd : json.Decode request1.Body ⟨"", ""⟩ = .ret (req, none))
    (hb : request2.Body = request1.Body ++ " " ++ tail) :
    handler w request2 = handler w request1 := by
  rcases hr : json.readValue request1.Body.data with ⟨n, e⟩
  cases e with
  | some err => simp [json.Decode, hr] at hd
  | none =>
    refine (handler_congr w request1 request2 hm ?_).symm
    rw [hb, json.Decode_trailing request1.Body tail ⟨"", ""⟩ n hr]

/-- C3, as stated, fails: the body made of a JSON object followed by the text `xyz` is
not a valid JSON document, yet `handler` does not answer 500: the decoder reads the
object and stops, the resolver is queried, and the response has status 200. -/
theorem handler_trailing_text_not_rejected :
    json.Valid "\x7b\"name\":\"example.com.\",\"type\":\"a\"\x7d xyz" = false
    ∧ (handler (worldReplying 7 [exampleA])
        (eventOf "POST" "\x7b\"name\":\"example.com.\",\"type\":\"a\"\x7d xyz")).calls
        = [⟨⟨"tcp"⟩, message 7 "a" "example.com.", "8.8.8.8:53"⟩]
    ∧ (handler (worldReplying 7 [exampleA])
        (eventOf "POST" "\x7b\"name\":\"example.com.\",\"type\":\"a\"\x7d xyz")).out
        = .ret ({ StatusCode := 200,
                  Headers := some [("Content-Type", "application/json"),
                                   ("Access-Control-Allow-Origin", "*"),
                                   ("Access-Control-Allow-Headers", "*")],
                  MultiValueHeaders := none,
                  Body := "[\x7b\"name\":\"example.com.\",\"value\":\"93.184.216.34\",\"type\":\"A\",\"ttl\":300\x7d]",
                  IsBase64Encoded := false }, none) := by
  refine ⟨by decide, by decide, by decide⟩

/-- C3, amended. For a POST request whose body does not begin with a valid JSON document
(no leading part of the body is one), and more generally whenever decoding the body
reports an error, `handler` returns a nil error and the response with status 500 and
the body `Failed to parse payload: ` followed by the text of the error, and no exchange
with the resolver is performed. So it is for the empty body (`EOF`) and for a truncated
object (`unexpected EOF`). Text after the first JSON value is not examined: a body that
decodes, followed by a space and any text, is handled like the body alone, as is the
object followed by `xyz`. -/
theorem handler_parse_failure :
    (∀ (w : World) (request : events.APIGatewayProxyRequest),
      request.HTTPMethod = "POST" →
      (∀ n : Nat, json.Valid (String.mk (request.Body.data.take n)) = false) →
      ∃ err : json.error,
        handler w request =
          ⟨[], .ret ({ StatusCode := 500, Headers := none, MultiValueHeaders := none,
                       Body := "Failed to parse payload: " ++ err.Error,
                       IsBase64Encoded := false }, none)⟩)
    ∧ (∀ (w : World) (request : events.APIGatewayProxyRequest) (req : Request)
        (err : json.error),
      request.HTTPMethod = "POST" →
      json.Decode request.Body ⟨"", ""⟩ = .ret (req, some err) →
      handler w request =
        ⟨[], .ret ({ StatusCode := 500, Headers := none, MultiValueHeaders := none,
                     Body := "Failed to parse payload: " ++ err.Error,
                     IsBase64Encoded := false }, none)⟩)
    ∧ (∀ w : World,
        handler w (eventOf "POST" "") =
          ⟨[], .ret ({ StatusCode := 500, Headers := none, MultiValueHeaders := none,
                       Body := "Failed to parse payload: EOF",
                       IsBase64Encoded := false }, none)⟩)
    ∧ (∀ w : World,
        handler w (eventOf "POST" "\x7b\"name\":\"example.com.\",\"ty") =
          ⟨[], .ret ({ StatusCode := 500, Headers := none, MultiValueHeaders := none,
                       Body := "Failed to parse payload: unexpected EOF",
                       IsBase64Encoded := false }, none)⟩)
    ∧ (∀ (w : World) (request1 request2 : events.APIGatewayProxyRequest) (req : Request)
        (tail : String),
      request1.HTTPMethod = "POST" → request2.HTTPMethod = "POST" →
      json.Decode request1.Body ⟨"", ""⟩ = .ret (req, none) →
      request2.Body = request1.Body ++ " " ++ tail →
      handler w request2 = handler w request1)
    ∧ (handler (worldReplying 7 [exampleA])
        (eventOf "POST" "\x7b\"name\":\"example.com.\",\"type\":\"a\"\x7d xyz")).out
        = (handler (worldReplying 7 [exampleA])
            (eventOf "POST" "\x7b\"name\":\"example.com.\",\"type\":\"a\"\x7d")).out := by
  refine ⟨?_, ?_, ?_, ?_, ?_, by decide⟩
  · intro w request hm hv
    obtain ⟨err, he⟩ := json.Decode_of_no_valid_prefix request.Body ⟨"", ""⟩ hv
    exact ⟨err, handler_of_decode_error w request _ err hm he⟩
  · intro w request req err hm hd
    exact handler_of_decode_error w request req err hm hd
  · intro w
    exact handler_of_decode_error w (eventOf "POST" "") ⟨"", ""⟩ .EOF rfl (by decide)
  · intro w
    exact handler_of_decode_error w (eventOf "POST" "\x7b\"name\":\"example.com.\",\"ty")
      ⟨"", ""⟩ .ErrUnexpectedEOF rfl (by decide)
  · intro w request1 request2 req tail hm1 hm2 hd hb
    exact handler_trailing w request1 request2 req tail (by rw [hm1, hm2]) hd hb

/-- C3 amended, at an input: no leading part of the truncated object `\x7b"name":` is a
valid JSON document, and the request is answered with status 500. -/
theorem handler_parse_failure_witness :
    (∀ n : Nat, json.Valid (String.mk ((eventOf "POST" "\x7b\"name\":").Body.data.take n)) = false)
    ∧ ∃ err : json.error,
        handler (worldReplying 7 [exampleA]) (eventOf "POST" "\x7b\"name\":") =
          ⟨[], .ret ({ StatusCode := 500, Headers := none, MultiValueHeaders := none,
                       Body := "Failed to parse payload: " ++ err.Error,
                       IsBase64Encoded := false }, none)⟩ :=
  have h : ∀ n : Nat,
      json.Valid (String.mk ((eventOf "POST" "\x7b\"name\":").Body.data.take n)) = false := by
    intro n
    rcases n with _ | _ | _ | _ | _ | _ | _ | _ | _ | n
    iterate 9 decide
    exact (by decide : json.Valid "\x7b\"name\":" = false)
  ⟨h, handler_parse_failure.1 (worldReplying 7 [exampleA]) (eventOf "POST" "\x7b\"name\":") rfl h⟩

/-! ## The JSON text of a string denotes the string -/

namespace json

theorem char_eq_of_toNat (c : Char) (n : Nat) (h : c.toNat = n) : c = Char.ofNat n := by
  rw [← h]
  exact (Char.ofNat_toNat c).symm

theorem hexVal_lowerhex (k : Nat) (h : k < 16) : hexVal (strconv.lowerhex k) = some k := by
  interval_cases k <;> decide

theorem isHex_lowerhex (k : Nat) (h : k < 16) : isHex (strconv.lowerhex k) = true := by
  interval_cases k <;> decide

theorem getu4_00 (k1 k2 : Nat) (h1 : k1 < 16) (h2 : k2 < 16) (tail : List Char) :
    getu4 ('\\' :: 'u' :: '0' :: '0' :: strconv.lowerhex k1 :: strconv.lowerhex k2 :: tail)
      = some (k1 * 16 + k2) := by
  have e0 : hexVal '0' = some 0 := by decide
  simp [getu4, hexVal_lowerhex k1 h1, hexVal_lowerhex k2 h2, e0]

theorem getu4_202 (k : Nat) (h : k < 16) (tail : List Char) :
    getu4 ('\\' :: 'u' :: '2' :: '0' :: '2' :: strconv.lowerhex k :: tail)
      = some (0x2020 + k) := by
  have e0 : hexVal '0' = some 0 := by decide
  have e2 : hexVal '2' = some 2 := by decide
  simp [getu4, hexVal_lowerhex k h, e0, e2]

/-- Unquoting what `appendChar` wrote for a character gives the character back. -/
theorem unquoteLoop_appendChar (c : Char) (tail : List Char) :
    unquoteLoop 0 (appendChar c ++ tail) = (unquoteLoop 0 tail).map (c :: ·) := by
  unfold appendChar
  simp only
  by_cases h80 : c.toNat < 0x80
  · rw [if_pos h80]
    by_cases hs : htmlSafe c.toNat = true
    · rw [if_pos hs]
      have h1 : c ≠ '\\' := by
        intro h; subst h; revert hs; decide
      have h2 : c ≠ '"' := by
        intro h; subst h; revert hs; decide
      have h3 : ¬ c.toNat < 0x20 := by
        simp only [htmlSafe, Bool.and_eq_true, decide_eq_true_eq] at hs
        omega
      simp [unquoteLoop, h1, h2, h3]
    · rw [if_neg hs]
      by_cases hq : c = '\\' ∨ c = '"'
      · rw [if_pos hq]
        rcases hq with h | h <;> subst h <;> simp [unquoteLoop]
      rw [if_neg hq]
      by_cases h8 : c.toNat = 8
      · rw [if_pos h8]
        have := char_eq_of_toNat c 8 h8
        subst this
        simp [unquoteLoop]
      rw [if_neg h8]
      by_cases h12 : c.toNat = 12
      · rw [if_pos h12]
        have := char_eq_of_toNat c 12 h12
        subst this
        simp [unquoteLoop]
      rw [if_neg h12]
      by_cases hn : c = '\n'
      · rw [if_pos hn]
        subst hn
        simp [unquoteLoop]
      rw [if_neg hn]
      by_cases hr : c = '\r'
      · rw [if_pos hr]
        subst hr
        simp [unquoteLoop]
      rw [if_neg hr]
      by_cases ht : c = '\t'
      · rw [if_pos ht]
        subst ht
        simp [unquoteLoop]
      rw [if_neg ht]
      have hg := getu4_00 (c.toNat / 16) (c.toNat % 16) (by omega) (by omega) tail
      have hv : c.toNat / 16 * 16 + c.toNat % 16 = c.toNat := by omega
      rw [hv] at hg
      have hsur : IsSurrogate c.toNat = false := by
        simp only [IsSurrogate, Bool.and_eq_false_imp, decide_eq_true_eq, decide_eq_false_iff_not]
        omega
      simp [unquoteLoop, hg, hsur]
  · rw [if_neg h80]
    by_cases hl : c.toNat = 0x2028 ∨ c.toNat = 0x2029
    · rw [if_pos hl]
      have hg := getu4_202 (c.toNat % 16) (by omega) tail
      have hv : 0x2020 + c.toNat % 16 = c.toNat := by omega
      rw [hv] at hg
      have hsur : IsSurrogate c.toNat = false := by
        rcases hl with h | h <;> rw [h] <;> decide
      simp [unquoteLoop, hg, hsur]
    · rw [if_neg hl]
      have h1 : c ≠ '\\' := by
        intro h; subst h; revert h80; decide
      have h2 : c ≠ '"' := by
        intro h; subst h; revert h80; decide
      have h3 : ¬ c.toNat < 0x20 := by omega
      simp [unquoteLoop, h1, h2, h3]

theorem unquoteLoop_flatten (l : List Char) :
    unquoteLoop 0 (l.map appendChar).flatten = some l := by
  induction l with
  | nil => simp [unquoteLoop]
  | cons c rest ih =>
    rw [List.map_cons, List.flatten_cons, unquoteLoop_appendChar, ih]
    rfl

/-- The JSON string literal `appendString` writes for a string is unquoted to that
string by `unquoteBytes`. -/
theorem unquoteBytes_appendString (src : String) :
    unquoteBytes (appendString src).data = some src.data := by
  have hd : (appendString src).data = '"' :: ((src.data.map appendChar).flatten ++ ['"']) := rfl
  rw [hd]
  unfold unquoteBytes
  have h1 : ¬ (('"' :: ((src.data.map appendChar).flatten ++ ['"'])).length < 2
      ∨ ('"' :: ((src.data.map appendChar).flatten ++ ['"'])).head? ≠ some '"'
      ∨ ('"' :: ((src.data.map appendChar).flatten ++ ['"'])).getLast? ≠ some '"') := by
    have hl : ('"' :: ((src.data.map appendChar).flatten ++ ['"'])).getLast? = some '"' := by
      rw [← List.cons_append, List.getLast?_append]
      rfl
    simp [hl]
  rw [if_neg h1]
  simp only [List.drop_succ_cons, List.drop_zero, List.dropLast_concat]
  exact unquoteLoop_flatten src.data

end json

/-! ## The JSON text of a result sequence is a valid JSON document -/

namespace json

theorem scanAll_append (l1 l2 : List Char) : ∀ s : scanner,
    scanAll s (l1 ++ l2) = (scanAll s l1).bind (fun s2 => scanAll s2 l2) := by
  induction l1 with
  | nil => intro s; rfl
  | cons c rest ih =>
    intro s
    simp only [List.cons_append, scanAll]
    split_ifs
    · rfl
    · exact ih _

theorem checkValidLoop_eq (l : List Char) : ∀ s : scanner,
    checkValidLoop s l =
      match scanAll s l with
      | none => false
      | some s2 => decide (s2.eof.2 ≠ .scanError) := by
  induction l with
  | nil => intro s; rfl
  | cons c rest ih =>
    intro s
    simp only [checkValidLoop, scanAll]
    split_ifs
    · rfl
    · exact ih _

/-- Inside a string literal, what `appendChar` wrote for a character keeps the scanner
inside the string literal. -/
theorem scanAll_appendChar (c : Char) (et : Bool) (ps : List ParseState) :
    scanAll ⟨.stateInString, et, ps, none⟩ (appendChar c)
      = some ⟨.stateInString, et, ps, none⟩ := by
  unfold appendChar
  simp only
  by_cases h80 : c.toNat < 0x80
  · rw [if_pos h80]
    by_cases hs : htmlSafe c.toNat = true
    · rw [if_pos hs]
      have h1 : c ≠ '\\' := by
        intro h; subst h; revert hs; decide
      have h2 : c ≠ '"' := by
        intro h; subst h; revert hs; decide
      have h3 : ¬ c.toNat < 0x20 := by
        simp only [htmlSafe, Bool.and_eq_true, decide_eq_true_eq] at hs
        omega
      simp [scanAll, scanner.stepFn, stateInString, h1, h2, h3]
    · rw [if_neg hs]
      by_cases hq : c = '\\' ∨ c = '"'
      · rw [if_pos hq]
        rcases hq with h | h <;> subst h <;>
          simp [scanAll, scanner.stepFn, stateInString, stateInStringEsc]
      rw [if_neg hq]
      by_cases h8 : c.toNat = 8
      · rw [if_pos h8]
        simp [scanAll, scanner.stepFn, stateInString, stateInStringEsc]
      rw [if_neg h8]
      by_cases h12 : c.toNat = 12
      · rw [if_pos h12]
        simp [scanAll, scanner.stepFn, stateInString, stateInStringEsc]
      rw [if_neg h12]
      by_cases hn : c = '\n'
      · rw [if_pos hn]
        simp [scanAll, scanner.stepFn, stateInString, stateInStringEsc]
      rw [if_neg hn]
      by_cases hr : c = '\r'
      · rw [if_pos hr]
        simp [scanAll, scanner.stepFn, stateInString, stateInStringEsc]
      rw [if_neg hr]
      by_cases ht : c = '\t'
      · rw [if_pos ht]
        simp [scanAll, scanner.stepFn, stateInString, stateInStringEsc]
      rw [if_neg ht]
      have e0 : isHex '0' = true := by decide
      simp [scanAll, scanner.stepFn, stateInString, stateInStringEsc, stateInStringEscHex,
        isHex_lowerhex (c.toNat / 16) (by omega), isHex_lowerhex (c.toNat % 16) (by omega), e0]
  · rw [if_neg h80]
    by_cases hl : c.toNat = 0x2028 ∨ c.toNat = 0x2029
    · rw [if_pos hl]
      have e0 : isHex '0' = true := by decide
      have e2 : isHex '2' = true := by decide
      simp [scanAll, scanner.stepFn, stateInString, stateInStringEsc, stateInStringEscHex,
        isHex_lowerhex (c.toNat % 16) (by omega), e0, e2]
    · rw [if_neg hl]
      have h1 : c ≠ '\\' := by
        intro h; subst h; revert h80; decide
      have h2 : c ≠ '"' := by
        intro h; subst h; revert h80; decide
      have h3 : ¬ c.toNat < 0x20 := by omega
      simp [scanAll, scanner.stepFn, stateInString, h1, h2, h3]

theorem scanAll_flatten (l : List Char) (et : Bool) (ps : List ParseState) :
    scanAll ⟨.stateInString, et, ps, none⟩ (l.map appendChar).flatten
      = some ⟨.stateInString, et, ps, none⟩ := by
  induction l with
  | nil => rfl
  | cons c rest ih =>
    rw [List.map_cons, List.flatten_cons, scanAll_append, scanAll_appendChar]
    exact ih

/-- Inside a string literal, the scanner reads the rest of what `appendString` wrote
and ends after the value. -/
theorem scanAll_appendString (src : String) (et : Bool) (ps : List ParseState) :
    scanAll ⟨.stateInString, et, ps, none⟩ ((appendString src).data.drop 1)
      = some ⟨.stateEndValue, et, ps, none⟩ := by
  have hd : (appendString src).data.drop 1 = (src.data.map appendChar).flatten ++ ['"'] := rfl
  rw [hd, scanAll_append, scanAll_flatten]
  simp [scanAll, scanner.stepFn, stateInString]


theorem scanAll_string (src : String) (et : Bool) (ps : List ParseState) :
    scanAll ⟨.stateBeginValue, et, ps, none⟩ (appendString src).data
      = some ⟨.stateEndValue, et, ps, none⟩ := by
  have hd : (appendString src).data = '"' :: (appendString src).data.drop 1 := rfl
  rw [hd]
  have h1 : scanAll ⟨.stateBeginValue, et, ps, none⟩ ('"' :: (appendString src).data.drop 1)
      = scanAll ⟨.stateInString, et, ps, none⟩ ((appendString src).data.drop 1) := by
    simp [scanAll, scanner.stepFn, stateBeginValue, isSpace]
  rw [h1]
  exact scanAll_appendString src et ps

theorem isDigit_digitChar (k : Nat) (h : k < 10) : isDigit (Nat.digitChar k) = true := by
  interval_cases k <;> decide

theorem isDigit19_digitChar (k : Nat) (h0 : k ≠ 0) (h : k < 10) :
    isDigit19 (Nat.digitChar k) = true := by
  interval_cases k <;> first | decide | exact absurd rfl h0

/-- The decimal digits `Nat.repr` writes: only digits, a single `0` for zero, and no
leading zero otherwise. -/
theorem toDigitsCore_spec : ∀ (fuel n : Nat) (ds : List Char), n < fuel →
    ∃ pre : List Char, Nat.toDigitsCore 10 fuel n ds = pre ++ ds
      ∧ (∀ c ∈ pre, isDigit c = true)
      ∧ (n = 0 → pre = ['0'])
      ∧ (n ≠ 0 → ∃ d t, pre = d :: t ∧ isDigit19 d = true) := by
  intro fuel
  induction fuel with
  | zero => intro n ds h; omega
  | succ fuel ih =>
    intro n ds h
    simp only [Nat.toDigitsCore]
    by_cases h0 : n / 10 = 0
    · rw [if_pos h0]
      have hlt : n < 10 := by omega
      refine ⟨[Nat.digitChar (n % 10)], rfl, ?_, ?_, ?_⟩
      · intro c hc
        simp only [List.mem_singleton] at hc
        subst hc
        exact isDigit_digitChar _ (by omega)
      · intro hn
        subst hn
        rfl
      · intro hn
        refine ⟨_, [], rfl, ?_⟩
        rw [Nat.mod_eq_of_lt hlt]
        exact isDigit19_digitChar n hn hlt
    · rw [if_neg h0]
      obtain ⟨pre, hp, hall, -, hne⟩ := ih (n / 10) (Nat.digitChar (n % 10) :: ds) (by omega)
      refine ⟨pre ++ [Nat.digitChar (n % 10)], by rw [hp]; simp, ?_, ?_, ?_⟩
      · intro c hc
        rcases List.mem_append.1 hc with hc | hc
        · exact hall c hc
        · simp only [List.mem_singleton] at hc
          subst hc
          exact isDigit_digitChar _ (by omega)
      · intro hn
        subst hn
        simp at h0
      · intro _
        obtain ⟨d, t, hd, h19⟩ := hne h0
        exact ⟨d, t ++ [Nat.digitChar (n % 10)], by rw [hd]; rfl, h19⟩

theorem scanAll_digits (l : List Char) (h : ∀ c ∈ l, isDigit c = true) (et : Bool)
    (ps : List ParseState) :
    scanAll ⟨.state1, et, ps, none⟩ l = some ⟨.state1, et, ps, none⟩ := by
  induction l with
  | nil => rfl
  | cons c rest ih =>
    have hc := h c (List.mem_cons_self _ _)
    have hr := ih (fun x hx => h x (List.mem_cons_of_mem _ hx))
    simp only [scanAll, scanner.stepFn, state1, hc, if_true]
    simpa using hr

/-- At the beginning of a value, the scanner reads the decimal form of a number and is
then in one of the two states after an integer. -/
theorem scanAll_number (n : Nat) (et : Bool) (ps : List ParseState) :
    scanAll ⟨.stateBeginValue, et, ps, none⟩ (strconv.FormatUint n).data
        = some ⟨.state0, et, ps, none⟩
    ∨ scanAll ⟨.stateBeginValue, et, ps, none⟩ (strconv.FormatUint n).data
        = some ⟨.state1, et, ps, none⟩ := by
  have hd : (strconv.FormatUint n).data = Nat.toDigitsCore 10 (n + 1) n [] := rfl
  obtain ⟨pre, hp, hall, hz, hnz⟩ := toDigitsCore_spec (n + 1) n [] (by omega)
  rw [hd, hp, List.append_nil]
  by_cases h0 : n = 0
  · left
    rw [hz h0]
    simp [scanAll, scanner.stepFn, stateBeginValue, isSpace]
  · right
    obtain ⟨d, t, hdt, h19⟩ := hnz h0
    subst hdt
    have hd1 : isDigit d = true := hall d (List.mem_cons_self _ _)
    have hn : ∀ x : Char, isDigit x = true → x ≠ ' ' ∧ x ≠ '\t' ∧ x ≠ '\r' ∧ x ≠ '\n' ∧ x ≠ '{'
        ∧ x ≠ '[' ∧ x ≠ '"' ∧ x ≠ '-' ∧ x ≠ 't' ∧ x ≠ 'f' ∧ x ≠ 'n' := by
      intro x hx
      refine ⟨?_, ?_, ?_, ?_, ?_, ?_, ?_, ?_, ?_, ?_, ?_⟩ <;>
        (intro h; subst h; revert hx; decide)
    obtain ⟨a1, a2, a3, a4, a5, a6, a7, a8, a9, a10, a11⟩ := hn d hd1
    have ht := scanAll_digits t (fun x hx => hall x (List.mem_cons_of_mem _ hx)) et ps
    by_cases hd0 : d = '0'
    · subst hd0
      exact absurd h19 (by decide)
    · simp only [scanAll, scanner.stepFn, stateBeginValue, isSpace, a1, a2, a3, a4, a5, a6, a7,
        a8, a9, a10, a11, hd0, h19, decide_False, Bool.or_self, Bool.false_eq_true, if_false,
        if_true, reduceCtorEq]
      exact ht


/-- Inside an array, at the beginning of an element, the scanner reads the object
`encodeResponse` wrote and is then after a value of the array. -/
theorem scanAll_encodeResponse (r : Response) (st : StepFn)
    (hst : st = .stateBeginValue ∨ st = .stateBeginValueOrEmpty) :
    scanAll ⟨st, false, [.parseArrayValue], none⟩ (encodeResponse r).data
      = some ⟨.stateEndValue, false, [.parseArrayValue], none⟩ := by
  have hd : (encodeResponse r).data
      = "\x7b\"name\":".data ++ ((appendString r.Name).data ++ (",\"value\":".data
        ++ ((appendString r.Value).data ++ (",\"type\":".data ++ ((appendString r.Type_).data
        ++ (",\"ttl\":".data ++ ((strconv.FormatUint r.TTL).data ++ "\x7d".data))))))) := by
    simp only [encodeResponse, String.data_append, List.append_assoc]
  have s1 : scanAll ⟨st, false, [.parseArrayValue], none⟩ "\x7b\"name\":".data
      = some ⟨.stateBeginValue, false, [.parseObjectValue, .parseArrayValue], none⟩ := by
    rcases hst with h | h <;> subst h <;> decide
  have s2 : scanAll ⟨.stateEndValue, false, [.parseObjectValue, .parseArrayValue], none⟩
      ",\"value\":".data
      = some ⟨.stateBeginValue, false, [.parseObjectValue, .parseArrayValue], none⟩ := by
    decide
  have s3 : scanAll ⟨.stateEndValue, false, [.parseObjectValue, .parseArrayValue], none⟩
      ",\"type\":".data
      = some ⟨.stateBeginValue, false, [.parseObjectValue, .parseArrayValue], none⟩ := by
    decide
  have s4 : scanAll ⟨.stateEndValue, false, [.parseObjectValue, .parseArrayValue], none⟩
      ",\"ttl\":".data
      = some ⟨.stateBeginValue, false, [.parseObjectValue, .parseArrayValue], none⟩ := by
    decide
  have s5 : scanAll ⟨.state0, false, [.parseObjectValue, .parseArrayValue], none⟩ "\x7d".data
      = some ⟨.stateEndValue, false, [.parseArrayValue], none⟩ := by
    decide
  have s6 : scanAll ⟨.state1, false, [.parseObjectValue, .parseArrayValue], none⟩ "\x7d".data
      = some ⟨.stateEndValue, false, [.parseArrayValue], none⟩ := by
    decide
  rw [hd]
  simp only [scanAll_append, s1, s2, s3, s4, scanAll_string, Option.some_bind]
  rcases scanAll_number r.TTL false [.parseObjectValue, .parseArrayValue] with h | h <;>
    rw [h] <;> simp only [Option.some_bind, s5, s6]

theorem intercalate_go_data (sep : String) (l : List String) : ∀ acc : String,
    (String.intercalate.go acc sep l).data
      = acc.data ++ (l.map (fun a => sep.data ++ a.data)).flatten := by
  induction l with
  | nil => intro acc; simp [String.intercalate.go]
  | cons a rest ih =>
    intro acc
    simp only [String.intercalate.go, ih, String.data_append, List.map_cons, List.flatten_cons,
      List.append_assoc]

theorem scanAll_elements (l : List Response) :
    scanAll ⟨.stateEndValue, false, [.parseArrayValue], none⟩
        (l.map (fun r => ",".data ++ (encodeResponse r).data)).flatten
      = some ⟨.stateEndValue, false, [.parseArrayValue], none⟩ := by
  induction l with
  | nil => rfl
  | cons r rest ih =>
    have hc : scanAll ⟨.stateEndValue, false, [.parseArrayValue], none⟩ ",".data
        = some ⟨.stateBeginValue, false, [.parseArrayValue], none⟩ := by decide
    simp only [List.map_cons, List.flatten_cons, scanAll_append, hc, Option.some_bind,
      scanAll_encodeResponse r .stateBeginValue (Or.inl rfl)]
    exact ih

/-- The JSON array of encoded elements is a valid JSON document. -/
theorem Valid_array (l : List Response) :
    Valid ("[" ++ ",".intercalate (l.map encodeResponse) ++ "]") = true := by
  cases l with
  | nil => decide
  | cons r rest =>
    have hd : ("[" ++ ",".intercalate ((r :: rest).map encodeResponse) ++ "]").data
        = "[".data ++ ((encodeResponse r).data
          ++ ((rest.map (fun x => ",".data ++ (encodeResponse x).data)).flatten ++ "]".data)) := by
      simp only [List.map_cons, String.intercalate, intercalate_go_data, String.data_append,
        List.map_map, List.append_assoc]
      rfl
    have s0 : scanAll scanner.reset "[".data
        = some ⟨.stateBeginValueOrEmpty, false, [.parseArrayValue], none⟩ := by decide
    have s9 : scanAll ⟨.stateEndValue, false, [.parseArrayValue], none⟩ "]".data
        = some ⟨.stateEndTop, true, [], none⟩ := by decide
    unfold Valid
    rw [checkValidLoop_eq, hd]
    simp only [scanAll_append, s0, Option.some_bind,
      scanAll_encodeResponse r .stateBeginValueOrEmpty (Or.inr rfl), scanAll_elements, s9]
    decide

end json

/-- C5. For a POST request whose body decodes and whose exchange returns a reply and no
error, `handler` returns a nil error and the response with status 200, the three
standard headers and, as body, the JSON array of the result sequence of `query`, each
element an object with the keys `name`, `value`, `type`, `ttl` in this order. A reply
without answers gives the body `[]`, and a reply with the single A record of
`example.com.` gives the body shown. The strings are escaped as JSON requires (and as
Go's HTML-safe encoder does): the TXT record gives its quoted data with the quotes
escaped; for every result sequence the body is a valid JSON document, and the string
literal written for a string is unquoted to that string. -/
theorem handler_success :
    (∀ (w : World) (request : events.APIGatewayProxyRequest) (req : Request) (reply : dns.Msg),
      request.HTTPMethod = "POST" →
      json.Decode request.Body ⟨"", ""⟩ = .ret (req, none) →
      (w.Exchange ⟨"tcp"⟩ (message w.Id req.Type_ req.DomainName) "8.8.8.8:53").err = none →
      (w.Exchange ⟨"tcp"⟩ (message w.Id req.Type_ req.DomainName) "8.8.8.8:53").r = some reply →
      ∃ results : List Response,
        (query w req.Type_ req.DomainName).out = .ret (some (.of results), none)
        ∧ (handler w request).out
            = .ret ({ StatusCode := 200,
                      Headers := some [("Content-Type", "application/json"),
                                       ("Access-Control-Allow-Origin", "*"),
                                       ("Access-Control-Allow-Headers", "*")],
                      MultiValueHeaders := none,
                      Body := "[" ++ ",".intercalate (results.map (fun r =>
                        "\x7b\"name\":" ++ json.appendString r.Name
                          ++ ",\"value\":" ++ json.appendString r.Value
                          ++ ",\"type\":" ++ json.appendString r.Type_
                          ++ ",\"ttl\":" ++ strconv.FormatUint r.TTL ++ "\x7d")) ++ "]",
                      IsBase64Encoded := false }, none))
    ∧ (handler (worldReplying 7 []) (eventOf "POST" exampleBody)).out
        = .ret ({ StatusCode := 200,
                  Headers := some [("Content-Type", "application/json"),
                                   ("Access-Control-Allow-Origin", "*"),
                                   ("Access-Control-Allow-Headers", "*")],
                  MultiValueHeaders := none, Body := "[]", IsBase64Encoded := false }, none)
    ∧ (handler (worldReplying 7 [exampleA]) (eventOf "POST" exampleBody)).out
        = .ret ({ StatusCode := 200,
                  Headers := some [("Content-Type", "application/json"),
                                   ("Access-Control-Allow-Origin", "*"),
                                   ("Access-Control-Allow-Headers", "*")],
                  MultiValueHeaders := none,
                  Body := "[\x7b\"name\":\"example.com.\",\"value\":\"93.184.216.34\",\"type\":\"A\",\"ttl\":300\x7d]",
                  IsBase64Encoded := false }, none)
    ∧ (handler (worldReplying 7 [exampleTXT]) (eventOf "POST" exampleBody)).out
        = .ret ({ StatusCode := 200,
                  Headers := some [("Content-Type", "application/json"),
                                   ("Access-Control-Allow-Origin", "*"),
                                   ("Access-Control-Allow-Headers", "*")],
                  MultiValueHeaders := none,
                  Body := "[\x7b\"name\":\"example.com.\",\"value\":\"\\\"hello world\\\"\",\"type\":\"TXT\",\"ttl\":300\x7d]",
                  IsBase64Encoded := false }, none)
    ∧ (handler (worldReplying 7 [exampleEscaped, exampleA]) (eventOf "POST" exampleBody)).out
        = .ret ({ StatusCode := 200,
                  Headers := some [("Content-Type", "application/json"),
                                   ("Access-Control-Allow-Origin", "*"),
                                   ("Access-Control-Allow-Headers", "*")],
                  MultiValueHeaders := none,
                  Body := "[\x7b\"name\":\"a\\\\.b.example.com.\",\"value\":\"\\\"\\u003cb\\u003e \\u0026 \\\\\\\"x\\\\\\\"\\\"\",\"type\":\"TXT\",\"ttl\":4294967295\x7d,\x7b\"name\":\"example.com.\",\"value\":\"93.184.216.34\",\"type\":\"A\",\"ttl\":300\x7d]",
                  IsBase64Encoded := false }, none)
    ∧ (∀ results : List Response,
        json.Valid ("[" ++ ",".intercalate (results.map (fun r =>
          "\x7b\"name\":" ++ json.appendString r.Name
            ++ ",\"value\":" ++ json.appendString r.Value
            ++ ",\"type\":" ++ json.appendString r.Type_
            ++ ",\"ttl\":" ++ strconv.FormatUint r.TTL ++ "\x7d")) ++ "]") = true)
    ∧ (∀ src : String, json.unquoteBytes (json.appendString src).data = some src.data)
    ∧ json.appendString "tab\there\nnl\rcr\x01 \x7f <&> \u2028\u2029 é \"q\" back\\slash /"
        = "\"tab\\there\\nnl\\rcr\\u0001 \x7f \\u003c\\u0026\\u003e \\u2028\\u2029 é \\\"q\\\" back\\\\slash /\"" := by
  refine ⟨?_, by decide, by decide, by decide, by decide, json.Valid_array,
    json.unquoteBytes_appendString, by decide⟩
  intro w request req reply hm hd he hr
  refine ⟨reply.Answer.map toResponse, ?_, ?_⟩
  · rw [query_of_reply w _ _ reply he hr]
  · rw [handler_of_decoded w request req hm hd, query_of_reply w _ _ reply he hr]
    rfl

/-- C5, at an input: the request for the A records of `example.com.`, answered with one
A record. -/
theorem handler_success_witness :
    ∃ results : List Response,
      (query (worldReplying 7 [exampleA]) "a" "example.com.").out
          = .ret (some (.of results), none)
      ∧ (handler (worldReplying 7 [exampleA]) (eventOf "POST" exampleBody)).out
          = .ret ({ StatusCode := 200,
                    Headers := some [("Content-Type", "application/json"),
                                     ("Access-Control-Allow-Origin", "*"),
                                     ("Access-Control-Allow-Headers", "*")],
                    MultiValueHeaders := none,
                    Body := "[" ++ ",".intercalate (results.map (fun r =>
                      "\x7b\"name\":" ++ json.appendString r.Name
                        ++ ",\"value\":" ++ json.appendString r.Value
                        ++ ",\"type\":" ++ json.appendString r.Type_
                        ++ ",\"ttl\":" ++ strconv.FormatUint r.TTL ++ "\x7d")) ++ "]",
                    IsBase64Encoded := false }, none) :=
  handler_success.1 (worldReplying 7 [exampleA]) (eventOf "POST" exampleBody)
    ⟨"example.com.", "a"⟩ _ rfl (by decide) rfl rfl

